import Mathlib

/-!
# digital_dash: the OBD-II serial protocol engine

A shallow embedding of `raylib_dash_ai/obd_reader.c` (connection bring-up,
command/response exchange, hex decoding, PID extractors) and of the poller
thread and the OBD-mode pass of the main loop of
`raylib_dash_ai/tachometer_obd.c`, followed by theorems about them.

Conventions of the embedding.

* A C `char` is its byte value, a `Nat`.  The comparisons the program makes
  on characters only separate the ranges `'0'..'9'`, `'A'..'F'`, `'a'..'f'`
  and the value `0`, so the signedness of `char` plays no role.
* A `const char*` is the list of the characters from the pointer onwards.
  Dereferencing the end of the list reads the terminating NUL, and a `0`
  inside the list is a NUL as well: everything after it is never looked at.
* C `int` values are `Int` (or `Nat` where the program keeps them
  non-negative); all values stay far below `2^31`.
* Loops are functions with a fuel argument that return `none` when the fuel
  runs out; the callers pass enough fuel and this is proved.
-/

namespace DigitalDash

/-! ## Response decoder (`ParseHexResponse`) -/

/-- The test `(c >= '0' && c <= '9') || (c >= 'A' && c <= 'F') || (c >= 'a' && c <= 'f')`. -/
def isHexChar (c : Nat) : Bool :=
  (decide (48 ≤ c) && decide (c ≤ 57)) ||
  (decide (65 ≤ c) && decide (c ≤ 70)) ||
  (decide (97 ≤ c) && decide (c ≤ 102))

/-- The value `*ptr`: the first character, or NUL at the end of the string. -/
def deref (ptr : List Nat) : Nat := ptr.headD 0

/-- The bytes of a text, to write C string literals readably. -/
def cstr (s : String) : List Nat := s.toList.map Char.toNat

/-- The inner loop `while (*ptr && !isHex(*ptr)) ptr++;`. -/
def skipNonHex : List Nat → List Nat
  | [] => []
  | c :: rest => if c ≠ 0 ∧ isHexChar c = false then skipNonHex rest else c :: rest

/-- The value of one base-16 digit as `strtol` reads it. -/
def hexDigitVal (c : Nat) : Option Nat :=
  if 48 ≤ c ∧ c ≤ 57 then some (c - 48)
  else if 65 ≤ c ∧ c ≤ 70 then some (c - 55)
  else if 97 ≤ c ∧ c ≤ 102 then some (c - 87)
  else none

/-- The digit loop of `strtol`: accumulate base-16 digits up to the first
character that is not one (the NUL included). -/
def strtolDigits : Nat → List Nat → Nat
  | acc, [] => acc
  | acc, c :: rest =>
    match hexDigitVal c with
    | some d => strtolDigits (acc * 16 + d) rest
    | none => acc

/-- The C library call `strtol(s, NULL, 16)` on a string that starts with a
hex digit, which is the only way the program calls it (so no leading white
space and no sign).  An optional `0x`/`0X` prefix is skipped when a hex digit
follows it. -/
def strtol16 (s : List Nat) : Nat :=
  match s with
  | 48 :: x :: d :: rest =>
    if (x = 120 ∨ x = 88) ∧ (hexDigitVal d).isSome then strtolDigits 0 (d :: rest)
    else strtolDigits 0 s
  | _ => strtolDigits 0 s

/-- The outer loop of `ParseHexResponse`, lines 118-138.  `bytes` holds the
`*num_bytes` entries of the output array written so far; a new entry is
written at index `*num_bytes`. -/
def parseLoop : Nat → List Nat → List Nat → Option (List Nat)
  | 0, _, _ => none
  | fuel + 1, ptr, bytes =>
    -- while (*ptr)
    if deref ptr = 0 then some bytes
    else
      -- skip non-hex characters
      let ptr1 := skipNonHex ptr
      -- if (!*ptr) break;
      if deref ptr1 = 0 then some bytes
      else
        -- temp[0] = *ptr++;
        let t0 := deref ptr1
        let ptr2 := ptr1.tail
        -- if (!*ptr) break;
        if deref ptr2 = 0 then some bytes
        else
          -- temp[1] = *ptr++; temp[2] = '\0';
          let t1 := deref ptr2
          let ptr3 := ptr2.tail
          -- bytes[*num_bytes] = (unsigned char)strtol(temp, NULL, 16); (*num_bytes)++;
          let bytes1 := bytes ++ [strtol16 [t0, t1, 0] % 256]
          -- if (*num_bytes >= 64) break;
          if bytes1.length ≥ 64 then some bytes1
          else parseLoop fuel ptr3 bytes1

/-- The function `ParseHexResponse(response, bytes, &num_bytes)`: the returned
flag `*num_bytes > 0` and the `*num_bytes` bytes written to the output array. -/
def ParseHexResponse (response : List Nat) : Option (Bool × List Nat) :=
  (parseLoop (response.length + 1) response []).map
    fun bytes => (decide (bytes.length > 0), bytes)

/-! ### The decoder as the specification words it -/

/-- The hex-digit characters of a response, in order, all others deleted. -/
def specHexDigits (response : List Nat) : List Nat :=
  (response.takeWhile (fun c => c ≠ 0)).filter isHexChar

/-- Group digits left to right into pairs, first digit the high nibble; a
final unpaired digit is discarded. -/
def specPairs : List Nat → List Nat
  | hi :: lo :: rest => (16 * (hexDigitVal hi).getD 0 + (hexDigitVal lo).getD 0) :: specPairs rest
  | _ => []

/-- The byte sequence the specification describes: delete the non-hex
characters, pair the digits, keep at most 64 pairs. -/
def specParseHex (response : List Nat) : List Nat :=
  (specPairs (specHexDigits response)).take 64

/-! ## Serial device and command channel (`OBD_SendCommand`) -/

/-- The outcome of one call `read(fd, buf, count)`: an error (the call
returns -1 and stores nothing) or the bytes it stored at `buf` (the call
returns their number, 0 when no data is pending). -/
inductive ReadResult
  | error
  | data (bs : List Nat)
  deriving DecidableEq, Repr

/-- The return value `n` of the call. -/
def ReadResult.n : ReadResult → Int
  | .error => -1
  | .data bs => (bs.length : Int)

/-- The bytes the call stored in the buffer. -/
def ReadResult.bytes : ReadResult → List Nat
  | .error => []
  | .data bs => bs

/-- How the device behaves during one command/response exchange: the return
value of `write`, and the outcome of the read call made at attempt number
`attempts` (0, 1, ...) when it asks for `count` bytes. -/
structure Exchange where
  written : Int
  read : Nat → Nat → ReadResult

/-- A device that honours the contract of `read`: a call never stores more
bytes than it was asked for. -/
def Exchange.WellBehaved (ex : Exchange) : Prop :=
  ∀ attempts count, (ex.read attempts count).bytes.length ≤ count

/-- The externally visible actions of the protocol engine, in program order. -/
inductive IOEvent
  | open (path : List Nat)
  | configure
  | flush
  | write (cmd : List Nat) (len : Nat)
  | sleep (usec : Nat)
  | read (count : Nat) (result : ReadResult)
  | close
  | log (msg : String)
  | lock
  | unlock
  deriving DecidableEq, Repr

/-- The struct `OBDConnection` of `obd_reader.h`. -/
structure OBDConnection where
  fd : Int
  connected : Bool
  device_path : List Nat
  deriving DecidableEq, Repr

/-- The library call `strlen`. -/
def strlen (s : List Nat) : Nat := (s.takeWhile (fun c => c ≠ 0)).length

/-- The library call `strchr(s, c) != NULL` for a character `c` other than NUL:
`c` occurs in the string before its first NUL. -/
def strchr (s : List Nat) (c : Nat) : Bool := (s.takeWhile (fun x => x ≠ 0)).contains c

/-- The library call `memset(buf, 0, size)`. -/
def memsetZero (buf : List Nat) (size : Nat) : List Nat :=
  List.replicate size 0 ++ buf.drop size

/-- Store `bs` in the buffer from index `off` on (what `read` does at `response + total`). -/
def writeAt (buf : List Nat) (off : Nat) (bs : List Nat) : List Nat :=
  buf.take off ++ bs ++ buf.drop (off + bs.length)

/-- The state of the read loop when it is left: `total`, the buffer and the events so far. -/
structure ReadLoopState where
  total : Nat
  response : List Nat
  trace : List IOEvent
  deriving DecidableEq, Repr

/-- The read loop of `OBD_SendCommand`, lines 95-106. -/
def readLoop (ex : Exchange) (response_size : Nat) :
    Nat → Nat → Nat → List Nat → List IOEvent → Option ReadLoopState
  | 0, _, _, _, _ => none
  | fuel + 1, total, attempts, response, trace =>
    -- while (total < response_size - 1 && attempts < 50)
    if (total : Int) < (response_size : Int) - 1 ∧ attempts < 50 then
      -- int n = read(conn->fd, response + total, response_size - total - 1);
      let count := response_size - total - 1
      let r := ex.read attempts count
      let trace1 := trace ++ [IOEvent.read count r]
      if r.n > 0 then
        -- total += n;
        let response1 := writeAt response total r.bytes
        let total1 := total + r.n.toNat
        -- if (strchr(response, '>') != NULL) break;
        if strchr response1 62 then some ⟨total1, response1, trace1⟩
        else
          -- usleep(20000); attempts++;
          readLoop ex response_size fuel total1 (attempts + 1) response1
            (trace1 ++ [IOEvent.sleep 20000])
      else
        readLoop ex response_size fuel total (attempts + 1) response
          (trace1 ++ [IOEvent.sleep 20000])
    else some ⟨total, response, trace⟩

/-- What a call of `OBD_SendCommand` leaves behind: its return value, the
connection, the caller's buffer and the events it caused. -/
structure SendResult where
  ok : Bool
  conn : OBDConnection
  response : List Nat
  trace : List IOEvent
  deriving DecidableEq, Repr

/-- The function `OBD_SendCommand(conn, cmd, response, response_size)` against
a device behaving as `ex`.  `response` is the caller's buffer as it is before
the call. -/
def OBD_SendCommand (conn : OBDConnection) (cmd : List Nat) (response : List Nat)
    (response_size : Nat) (ex : Exchange) : Option SendResult :=
  -- if (!conn->connected) return false;
  if conn.connected = false then some ⟨false, conn, response, []⟩
  else
    -- tcflush; int len = strlen(cmd); int written = write(conn->fd, cmd, len);
    let len := strlen cmd
    let trace0 := [IOEvent.flush, IOEvent.write cmd len]
    -- if (written != len) { fprintf(stderr, ...); return false; }
    if ex.written ≠ (len : Int) then
      some ⟨false, conn, response, trace0 ++ [IOEvent.log "Failed to write command\n"]⟩
    else
      -- usleep(100000); total = 0; attempts = 0; memset(response, 0, response_size);
      let trace1 := trace0 ++ [IOEvent.sleep 100000]
      let response1 := memsetZero response response_size
      (readLoop ex response_size 51 0 0 response1 trace1).map fun st =>
        -- response[total] = '\0'; return total > 0;
        ⟨decide (st.total > 0), conn, st.response.set st.total 0, st.trace⟩

/-- The bytes the device delivered during an exchange, in order: those stored
by the read calls recorded in the trace. -/
def received : List IOEvent → List Nat
  | [] => []
  | IOEvent.read _ r :: es => r.bytes ++ received es
  | _ :: es => received es

/-! ## PID extractors -/

/-- What a PID extractor leaves behind: the returned `int`, the connection
and the events it caused. -/
structure Reading where
  value : Int
  conn : OBDConnection
  trace : List IOEvent
  deriving DecidableEq, Repr

/-- The function `OBD_ReadRPM(conn)`.  `uninit` is the indeterminate initial
content of the local array `response[256]`. -/
def OBD_ReadRPM (conn : OBDConnection) (uninit : List Nat) (ex : Exchange) : Option Reading :=
  (OBD_SendCommand conn (cstr "010C\r") uninit 256 ex).bind fun r =>
    if r.ok = false then some ⟨-1, r.conn, r.trace⟩
    else
      (ParseHexResponse r.response).map fun p =>
        let bytes := p.2
        if p.1 = false then ⟨-1, r.conn, r.trace⟩
        else if bytes.length < 4 ∨ bytes.getD 0 0 ≠ 0x41 ∨ bytes.getD 1 0 ≠ 0x0C then
          ⟨-1, r.conn, r.trace⟩
        else
          ⟨Int.tdiv (((bytes.getD 2 0 : Nat) : Int) * 256 + ((bytes.getD 3 0 : Nat) : Int)) 4,
            r.conn, r.trace⟩

/-- The function `OBD_ReadSpeed(conn)`. -/
def OBD_ReadSpeed (conn : OBDConnection) (uninit : List Nat) (ex : Exchange) : Option Reading :=
  (OBD_SendCommand conn (cstr "010D\r") uninit 256 ex).bind fun r =>
    if r.ok = false then some ⟨-1, r.conn, r.trace⟩
    else
      (ParseHexResponse r.response).map fun p =>
        let bytes := p.2
        if p.1 = false then ⟨-1, r.conn, r.trace⟩
        else if bytes.length < 3 ∨ bytes.getD 0 0 ≠ 0x41 ∨ bytes.getD 1 0 ≠ 0x0D then
          ⟨-1, r.conn, r.trace⟩
        else ⟨((bytes.getD 2 0 : Nat) : Int), r.conn, r.trace⟩

/-- The function `OBD_ReadCoolantTemp(conn)`. -/
def OBD_ReadCoolantTemp (conn : OBDConnection) (uninit : List Nat) (ex : Exchange) :
    Option Reading :=
  (OBD_SendCommand conn (cstr "0105\r") uninit 256 ex).bind fun r =>
    if r.ok = false then some ⟨-1, r.conn, r.trace⟩
    else
      (ParseHexResponse r.response).map fun p =>
        let bytes := p.2
        if p.1 = false then ⟨-1, r.conn, r.trace⟩
        else if bytes.length < 3 ∨ bytes.getD 0 0 ≠ 0x41 ∨ bytes.getD 1 0 ≠ 0x05 then
          ⟨-1, r.conn, r.trace⟩
        else ⟨((bytes.getD 2 0 : Nat) : Int) - 40, r.conn, r.trace⟩

/-! ## Connection bring-up and tear-down -/

/-- The library call `strncpy(dst, src, n)`: the string `src` cut or padded
with NULs to `n` bytes, stored over the first `n` bytes of `dst`. -/
def strncpy (dst src : List Nat) (n : Nat) : List Nat :=
  (src.takeWhile (fun c => c ≠ 0) ++ List.replicate n 0).take n ++ dst.drop n

/-- What a call of `OBD_Init` leaves behind: its return value, the connection
and the events it caused. -/
structure InitResult where
  ok : Bool
  conn : OBDConnection
  trace : List IOEvent
  deriving DecidableEq, Repr

/-- The function `OBD_Init(conn, device_path)`.  `openFd` is what `open`
returns, `dev` tells how the device behaves in the exchange of each command,
`uninit` is the indeterminate initial content of the local `response[256]`.
The termios set-up between `open` and the first command is the one event
`configure`; the texts of the `log` events stand for the formatted messages. -/
def OBD_Init (conn : OBDConnection) (device_path : List Nat) (openFd : Int)
    (uninit : List Nat) (dev : List Nat → Exchange) : Option InitResult :=
  -- conn->connected = false; strncpy(conn->device_path, device_path, sizeof(...) - 1);
  let conn1 : OBDConnection :=
    { conn with connected := false, device_path := strncpy conn.device_path device_path 255 }
  -- conn->fd = open(device_path, ...);
  let conn2 : OBDConnection := { conn1 with fd := openFd }
  let trace0 := [IOEvent.open device_path]
  if openFd = -1 then
    some ⟨false, conn2, trace0 ++ [IOEvent.log "Error opening device\n"]⟩
  else
    -- tcgetattr ... tcsetattr; tcflush(conn->fd, TCIOFLUSH);
    let trace1 := trace0 ++ [IOEvent.configure, IOEvent.flush]
    -- if (!OBD_SendCommand(conn, "ATZ\r", response, sizeof(response))) { ...; close; return false; }
    (OBD_SendCommand conn2 (cstr "ATZ\r") uninit 256 (dev (cstr "ATZ\r"))).bind fun r1 =>
      if r1.ok = false then
        some ⟨false, r1.conn,
          trace1 ++ r1.trace ++ [IOEvent.log "Failed to reset ELM327\n", IOEvent.close]⟩
      else
        -- usleep(100000); OBD_SendCommand(conn, "ATE0\r", ...); OBD_SendCommand(conn, "ATSP0\r", ...);
        (OBD_SendCommand r1.conn (cstr "ATE0\r") r1.response 256 (dev (cstr "ATE0\r"))).bind
          fun r2 =>
          (OBD_SendCommand r2.conn (cstr "ATSP0\r") r2.response 256 (dev (cstr "ATSP0\r"))).map
            fun r3 =>
            -- conn->connected = true; printf(...); return true;
            ⟨true, { r3.conn with connected := true },
              trace1 ++ r1.trace ++ [IOEvent.sleep 100000] ++ r2.trace ++ r3.trace ++
                [IOEvent.log "OBD-II connected\n"]⟩

/-- The function `OBD_Close(conn)`: the connection afterwards and the events. -/
def OBD_Close (conn : OBDConnection) : OBDConnection × List IOEvent :=
  if conn.connected = true then
    ({ conn with connected := false }, [IOEvent.close, IOEvent.log "OBD-II disconnected\n"])
  else (conn, [])

/-! ## Telemetry poller (`OBDReadThread`) -/

/-- The fields of `Tachometer` the poller touches.  The three targets are C
`float`s; the poller stores `(float)` of an `int` between -40 and 16383 in
them, which is exact, so they are modelled as rationals. -/
structure Tachometer where
  targetRPM : ℚ
  targetSpeed : ℚ
  targetTemp : ℚ
  obd : OBDConnection
  obdThreadRunning : Bool
  deriving DecidableEq

/-- One pass through the body of the `while (tach->obdThreadRunning)` loop of
`OBDReadThread`: the three queries, the guarded stores under the mutex, the
sleep.  `dev` tells how the device behaves in the exchange of each command. -/
def OBDReadThread_cycle (tach : Tachometer) (uninit : List Nat) (dev : List Nat → Exchange) :
    Option (Tachometer × List IOEvent) :=
  -- int rpm = OBD_ReadRPM(&tach->obd);
  (OBD_ReadRPM tach.obd uninit (dev (cstr "010C\r"))).bind fun rpm =>
  -- int speed = OBD_ReadSpeed(&tach->obd);
  (OBD_ReadSpeed rpm.conn uninit (dev (cstr "010D\r"))).bind fun speed =>
  -- int temp = OBD_ReadCoolantTemp(&tach->obd);
  (OBD_ReadCoolantTemp speed.conn uninit (dev (cstr "0105\r"))).map fun temp =>
    let t0 : Tachometer := { tach with obd := temp.conn }
    -- if (rpm >= 0) tach->targetRPM = (float)rpm;
    let t1 : Tachometer := if rpm.value ≥ 0 then { t0 with targetRPM := (rpm.value : ℚ) } else t0
    -- if (speed >= 0) tach->targetSpeed = (float)speed;
    let t2 : Tachometer :=
      if speed.value ≥ 0 then { t1 with targetSpeed := (speed.value : ℚ) } else t1
    -- if (temp >= -40) tach->targetTemp = (float)temp;
    let t3 : Tachometer :=
      if temp.value ≥ -40 then { t2 with targetTemp := (temp.value : ℚ) } else t2
    (t3, rpm.trace ++ speed.trace ++ temp.trace ++
      [IOEvent.lock, IOEvent.unlock, IOEvent.sleep 100000])

/-! ## The response wire format -/

/-- A character that may stand between hex pairs on the wire: any character
of a C string that is not a hex digit (space, CR, LF, `>`, ...). -/
def IsSep (c : Nat) : Prop := c ≠ 0 ∧ isHexChar c = false

instance (c : Nat) : Decidable (IsSep c) := by unfold IsSep; infer_instance

/-- The character of the hex digit `d` (0..15), in upper or lower case. -/
def hexDigitChar (upper : Bool) (d : Nat) : Nat :=
  if d < 10 then 48 + d else if upper then 55 + d else 87 + d

/-- One byte on the wire: a run of separators, then the byte as two hex
digits, each in its own case. -/
structure WirePair where
  sep : List Nat
  upperHi : Bool
  upperLo : Bool
  byte : Nat
  deriving DecidableEq, Repr

/-- The text of a sequence of bytes on the wire. -/
def wireText : List WirePair → List Nat
  | [] => []
  | p :: ps =>
    p.sep ++ hexDigitChar p.upperHi (p.byte / 16) :: hexDigitChar p.upperLo (p.byte % 16) ::
      wireText ps

/-- The pair is well formed: a byte, preceded by separators only. -/
def WirePair.Valid (p : WirePair) : Prop := p.byte < 256 ∧ ∀ c ∈ p.sep, IsSep c

instance (p : WirePair) : Decidable p.Valid := by unfold WirePair.Valid; infer_instance

/-! ## Consumer side of the hand-off (the main loop of `tachometer_obd.c`) -/

/-- The three shared fields `targetRPM`, `targetSpeed`, `targetTemp`. -/
inductive Target
  | rpm
  | speed
  | temp
  deriving DecidableEq, Repr

/-- What the main loop does with the mutex and the shared targets, in program
order. -/
inductive FrameEvent
  | lock
  | unlock
  | readTarget (t : Target)
  deriving DecidableEq, Repr

/-- The display values `currentRPM`, `currentSpeed`, `currentTemp` of
`Tachometer`, which only the main loop touches. -/
structure Display where
  currentRPM : ℚ
  currentSpeed : ℚ
  currentTemp : ℚ
  deriving DecidableEq

/-- One pass through the main loop in OBD mode with no key pressed, lines
455-470, up to the drawing, which uses the display values only.  The float
arithmetic of the smoothing is idealised as exact; what is proved about this
function concerns the order of the events alone. -/
def mainLoop_OBD_frame (tach : Tachometer) (cur : Display) : Display × List FrameEvent :=
  -- else { pthread_mutex_lock(&tach.dataMutex); /* nothing */ pthread_mutex_unlock(&tach.dataMutex); }
  let trace0 := [FrameEvent.lock, FrameEvent.unlock]
  -- float rpmDiff = tach.targetRPM - tach.currentRPM; tach.currentRPM += rpmDiff * 0.1f;
  let rpmDiff := tach.targetRPM - cur.currentRPM
  let trace1 := trace0 ++ [FrameEvent.readTarget Target.rpm]
  -- float speedDiff = tach.targetSpeed - tach.currentSpeed; tach.currentSpeed += speedDiff * 0.1f;
  let speedDiff := tach.targetSpeed - cur.currentSpeed
  let trace2 := trace1 ++ [FrameEvent.readTarget Target.speed]
  -- float tempDiff = tach.targetTemp - tach.currentTemp; tach.currentTemp += tempDiff * 0.05f;
  let tempDiff := tach.targetTemp - cur.currentTemp
  let trace3 := trace2 ++ [FrameEvent.readTarget Target.temp]
  (⟨cur.currentRPM + rpmDiff * (1 / 10), cur.currentSpeed + speedDiff * (1 / 10),
    cur.currentTemp + tempDiff * (1 / 20)⟩, trace3)

/-- The lock discipline on a sequence of events: every read of a shared target
happens while the mutex is held.  `held` tells whether it is held at the start. -/
def readsUnderLock : Bool → List FrameEvent → Bool
  | _, [] => true
  | _, FrameEvent.lock :: es => readsUnderLock true es
  | _, FrameEvent.unlock :: es => readsUnderLock false es
  | held, FrameEvent.readTarget _ :: es => held && readsUnderLock held es

/-! ## Counting the read attempts of an exchange -/

/-- The number of `read` calls recorded in a trace. -/
def readCount : List IOEvent → Nat
  | [] => 0
  | IOEvent.read _ _ :: es => readCount es + 1
  | _ :: es => readCount es

/-- The read calls of a trace ask for what the buffer still holds: each call
asks for `response_size - total - 1` bytes, `total` being the number of bytes
received before it, and gets at most that many. -/
def ReadsAsk (response_size : Nat) (trace : List IOEvent) : Prop :=
  ∀ pre count res post, trace = pre ++ IOEvent.read count res :: post →
    (received pre).length + count + 1 = response_size ∧ res.bytes.length ≤ count

/-! ## Concrete devices used in the examples -/

/-- A device that accepts every write of `len` bytes and delivers the text
`s` (cut to the number of bytes asked for) at the first read, nothing after. -/
def replyOnce (len : Nat) (s : String) : Exchange :=
  ⟨(len : Int), fun attempts count =>
    if attempts = 0 then ReadResult.data ((cstr s).take count) else ReadResult.data []⟩

/-- A device that accepts every write of `len` bytes and delivers the bytes
`bs` (cut to the number asked for) at the first read, nothing after. -/
def replyBytesOnce (len : Nat) (bs : List Nat) : Exchange :=
  ⟨(len : Int), fun attempts count =>
    if attempts = 0 then ReadResult.data (bs.take count) else ReadResult.data []⟩

/-- A device that accepts every write of `len` bytes and never sends anything. -/
def silent (len : Nat) : Exchange := ⟨(len : Int), fun _ _ => ReadResult.data []⟩

/-- An open, connected connection. -/
def conn0 : OBDConnection := ⟨3, true, []⟩

/-- A poller device: valid answers to the RPM and speed queries, silence on
the coolant query. -/
def devNoCoolant (cmd : List Nat) : Exchange :=
  if cmd = cstr "010C\r" then replyOnce 5 "41 0C 1A F8\r\r>"
  else if cmd = cstr "010D\r" then replyOnce 5 "41 0D 50\r\r>"
  else silent 5

/-- A device that answers the reset command with its version banner. -/
def devBanner (_cmd : List Nat) : Exchange := replyOnce 4 "ELM327 v1.5\r\r>"


/-! ## Lemmas about the decoder -/

/-- The decoder loop as a structural recursion on the input; `parseLoop`
computes this function whenever it has enough fuel. -/
def parseRec : List Nat → List Nat → List Nat
  | [], bytes => bytes
  | [_], bytes => bytes
  | c :: c1 :: rest, bytes =>
    if c = 0 then bytes
    else if isHexChar c = false then parseRec (c1 :: rest) bytes
    else if c1 = 0 then bytes
    else if (bytes ++ [strtol16 [c, c1, 0] % 256]).length ≥ 64 then
      bytes ++ [strtol16 [c, c1, 0] % 256]
    else parseRec rest (bytes ++ [strtol16 [c, c1, 0] % 256])

theorem skipNonHex_length_le (l : List Nat) : (skipNonHex l).length ≤ l.length := by
  induction l with
  | nil => simp [skipNonHex]
  | cons c rest ih =>
    unfold skipNonHex
    split
    · simp only [List.length_cons]; omega
    · exact Nat.le_refl _

theorem skipNonHex_head (l : List Nat) :
    deref (skipNonHex l) = 0 ∨ isHexChar (deref (skipNonHex l)) = true := by
  induction l with
  | nil => simp [skipNonHex, deref]
  | cons c rest ih =>
    unfold skipNonHex
    split
    · exact ih
    · rename_i h
      simp only [deref, List.headD_cons]
      by_cases hc : c = 0
      · exact Or.inl hc
      · right
        cases hx : isHexChar c
        · exact absurd ⟨hc, hx⟩ h
        · rfl

theorem parseRec_of_deref_zero (l bytes : List Nat) (h : deref l = 0) :
    parseRec l bytes = bytes := by
  match l with
  | [] => simp [parseRec]
  | [_] => simp [parseRec]
  | c :: c1 :: rest =>
    simp only [deref, List.headD_cons] at h
    simp [parseRec, h]

theorem parseRec_sep_cons (c : Nat) (l bytes : List Nat) (h0 : c ≠ 0)
    (hx : isHexChar c = false) : parseRec (c :: l) bytes = parseRec l bytes := by
  cases l with
  | nil => simp [parseRec]
  | cons c1 rest => simp [parseRec, h0, hx]

theorem parseRec_skipNonHex (l bytes : List Nat) :
    parseRec (skipNonHex l) bytes = parseRec l bytes := by
  induction l with
  | nil => simp [skipNonHex]
  | cons c rest ih =>
    unfold skipNonHex
    split
    · rename_i h
      rw [ih, parseRec_sep_cons c rest bytes h.1 h.2]
    · rfl

theorem parseLoop_eq_parseRec : ∀ (fuel : Nat) (ptr bytes : List Nat),
    ptr.length < fuel → parseLoop fuel ptr bytes = some (parseRec ptr bytes)
  | 0, _, _, h => absurd h (Nat.not_lt_zero _)
  | fuel + 1, ptr, bytes, h => by
    have hlen := skipNonHex_length_le ptr
    have hhead := skipNonHex_head ptr
    unfold parseLoop
    by_cases h0 : deref ptr = 0
    · simp [h0, parseRec_of_deref_zero ptr bytes h0]
    · rw [← parseRec_skipNonHex ptr bytes]
      simp only [h0, if_false]
      generalize skipNonHex ptr = ptr1 at hlen hhead
      match ptr1, hlen, hhead with
      | [], _, _ => simp [deref, parseRec]
      | [d], _, _ => by_cases hd : d = 0 <;> simp [deref, parseRec, hd]
      | d :: e :: tl, hlen, hhead =>
        simp only [deref, List.headD_cons] at hhead
        by_cases hd : d = 0
        · simp [deref, parseRec, hd]
        · have hx : isHexChar d = true := hhead.resolve_left hd
          by_cases he : e = 0
          · simp [deref, parseRec, hd, hx, he]
          · have hfuel : tl.length < fuel := by
              simp only [List.length_cons] at hlen; omega
            have ih := parseLoop_eq_parseRec fuel tl (bytes ++ [strtol16 [d, e, 0] % 256]) hfuel
            simp only [deref, List.headD_cons, List.tail_cons, hd, he, if_false, parseRec, hx,
              Bool.true_eq_false]
            split
            · rfl
            · exact ih

/-- The decoder always returns: it never runs out of fuel. -/
theorem ParseHexResponse_eq (response : List Nat) :
    ParseHexResponse response =
      some (decide ((parseRec response []).length > 0), parseRec response []) := by
  simp [ParseHexResponse, parseLoop_eq_parseRec (response.length + 1) response [] (Nat.lt_succ_self _)]

theorem hexDigitChar_isHex (u : Bool) (d : Nat) (h : d < 16) :
    isHexChar (hexDigitChar u d) = true := by
  have : ∀ d, d < 16 → ∀ u, isHexChar (hexDigitChar u d) = true := by decide
  exact this d h u

theorem hexDigitChar_ne_zero (u : Bool) (d : Nat) : hexDigitChar u d ≠ 0 := by
  unfold hexDigitChar
  split
  · omega
  · split <;> omega

theorem hexDigitVal_hexDigitChar (u : Bool) (d : Nat) (h : d < 16) :
    hexDigitVal (hexDigitChar u d) = some d := by
  have : ∀ d, d < 16 → ∀ u, hexDigitVal (hexDigitChar u d) = some d := by decide
  exact this d h u

theorem hexDigitVal_zero : hexDigitVal 0 = none := by decide

/-- The byte `strtol` reads from a pair of hex digits. -/
theorem strtol16_pair (t0 t1 v0 v1 : Nat) (h0 : hexDigitVal t0 = some v0)
    (h1 : hexDigitVal t1 = some v1) : strtol16 [t0, t1, 0] = v0 * 16 + v1 := by
  unfold strtol16
  split
  · rename_i x d rest heq
    simp only [List.cons.injEq] at heq
    obtain ⟨-, -, hd, -⟩ := heq
    subst hd
    simp [strtolDigits, h0, h1, hexDigitVal_zero]
  · simp [strtolDigits, h0, h1, hexDigitVal_zero]

theorem parseRec_seps (sep l bytes : List Nat) (h : ∀ c ∈ sep, IsSep c) :
    parseRec (sep ++ l) bytes = parseRec l bytes := by
  induction sep with
  | nil => rfl
  | cons c rest ih =>
    have hc : IsSep c := h c (List.mem_cons_self _ _)
    rw [List.cons_append, parseRec_sep_cons c _ bytes hc.1 hc.2]
    exact ih fun c hc => h c (List.mem_cons_of_mem _ hc)

/-- Decoding a well-formed wire text: the bytes, up to the limit of 64. -/
theorem parseRec_wireText (tail : List Nat) (htail : ∀ acc, parseRec tail acc = acc) :
    ∀ (ps : List WirePair) (bytes : List Nat), (∀ p ∈ ps, p.Valid) → bytes.length < 64 →
      parseRec (wireText ps ++ tail) bytes = (bytes ++ ps.map WirePair.byte).take 64 := by
  intro ps
  induction ps with
  | nil =>
    intro bytes _ hb
    simp only [wireText, List.nil_append, htail, List.map_nil, List.append_nil]
    rw [List.take_of_length_le (by omega)]
  | cons p ps ih =>
    intro bytes hv hb
    have hp : p.Valid := hv p (List.mem_cons_self _ _)
    have hhi : p.byte / 16 < 16 := by have := hp.1; omega
    have hlo : p.byte % 16 < 16 := Nat.mod_lt _ (by decide)
    have hbyte : strtol16 [hexDigitChar p.upperHi (p.byte / 16),
        hexDigitChar p.upperLo (p.byte % 16), 0] % 256 = p.byte := by
      rw [strtol16_pair _ _ _ _ (hexDigitVal_hexDigitChar _ _ hhi)
        (hexDigitVal_hexDigitChar _ _ hlo)]
      have := hp.1
      omega
    simp only [wireText, List.append_assoc, List.cons_append]
    rw [parseRec_seps _ _ _ hp.2]
    simp only [parseRec, hexDigitChar_ne_zero, hexDigitChar_isHex _ _ hhi,
      hexDigitChar_isHex _ _ hlo, if_false, Bool.true_eq_false, hbyte]
    split
    · rename_i hfull
      simp only [List.length_append, List.length_singleton] at hfull
      have hlen : (bytes ++ [p.byte]).length = 64 := by simp; omega
      have hsplit : bytes ++ List.map WirePair.byte (p :: ps) =
          (bytes ++ [p.byte]) ++ List.map WirePair.byte ps := by simp
      rw [hsplit, List.take_left' hlen]
    · rename_i hfull
      simp only [List.length_append, List.length_singleton] at hfull
      rw [ih (bytes ++ [p.byte]) (fun q hq => hv q (List.mem_cons_of_mem _ hq))
        (by simp; omega)]
      simp

theorem parseRec_sep_tail (tail : List Nat) (ht : ∀ c ∈ tail, IsSep c) (acc : List Nat) :
    parseRec tail acc = acc := by
  have h := parseRec_seps tail [] acc ht
  rw [List.append_nil] at h
  rw [h]
  rfl

theorem parseRec_sep_tail_digit (tail : List Nat) (ht : ∀ c ∈ tail, IsSep c) (d : Nat)
    (acc : List Nat) : parseRec (tail ++ [d]) acc = acc := by
  rw [parseRec_seps tail [d] acc ht]
  rfl

theorem wireText_ne_zero (ps : List WirePair) (tail : List Nat) (hv : ∀ p ∈ ps, p.Valid)
    (ht : ∀ c ∈ tail, IsSep c) : ∀ c ∈ wireText ps ++ tail, c ≠ 0 := by
  induction ps with
  | nil => intro c hc; exact (ht c (by simpa [wireText] using hc)).1
  | cons p ps ih =>
    intro c hc
    simp only [wireText, List.append_assoc, List.cons_append, List.mem_append, List.mem_cons] at hc
    rcases hc with h | h | h | h
    · exact ((hv p (List.mem_cons_self _ _)).2 c h).1
    · rw [h]; exact hexDigitChar_ne_zero _ _
    · rw [h]; exact hexDigitChar_ne_zero _ _
    · exact ih (fun q hq => hv q (List.mem_cons_of_mem _ hq)) c (List.mem_append.mpr h)

theorem specPairs_filter_wireText (ps : List WirePair) (tail : List Nat)
    (hv : ∀ p ∈ ps, p.Valid) (ht : ∀ c ∈ tail, IsSep c) :
    specPairs ((wireText ps ++ tail).filter isHexChar) = ps.map WirePair.byte := by
  have hsep : ∀ l : List Nat, (∀ c ∈ l, IsSep c) → l.filter isHexChar = [] := by
    intro l hl
    rw [List.filter_eq_nil_iff]
    intro c hc
    simp [(hl c hc).2]
  induction ps with
  | nil => simp [wireText, hsep tail ht, specPairs]
  | cons p ps ih =>
    have hp : p.Valid := hv p (List.mem_cons_self _ _)
    have hhi : p.byte / 16 < 16 := by have := hp.1; omega
    have hlo : p.byte % 16 < 16 := Nat.mod_lt _ (by decide)
    simp only [wireText, List.append_assoc, List.cons_append, List.filter_append, hsep p.sep hp.2,
      List.nil_append, List.filter_cons, hexDigitChar_isHex _ _ hhi, hexDigitChar_isHex _ _ hlo,
      if_true, specPairs, hexDigitVal_hexDigitChar _ _ hhi, hexDigitVal_hexDigitChar _ _ hlo,
      Option.getD_some, List.map_cons]
    rw [← List.filter_append, ih fun q hq => hv q (List.mem_cons_of_mem _ hq)]
    congr 1
    omega

/-- On well-formed wire text the decoder computes what the specification
describes; the two part only where a hex digit is followed by a character
that is not one. -/
theorem ParseHexResponse_wireText_eq_spec (ps : List WirePair) (tail : List Nat)
    (hv : ∀ p ∈ ps, p.Valid) (ht : ∀ c ∈ tail, IsSep c) :
    (ParseHexResponse (wireText ps ++ tail)).map Prod.snd =
      some (specParseHex (wireText ps ++ tail)) := by
  have htw : (wireText ps ++ tail).takeWhile (fun c => c ≠ 0) = wireText ps ++ tail := by
    rw [List.takeWhile_eq_self_iff]
    intro c hc
    simpa using wireText_ne_zero ps tail hv ht c hc
  rw [ParseHexResponse_eq,
    parseRec_wireText tail (parseRec_sep_tail tail ht) ps [] hv (by decide)]
  simp only [specParseHex, specHexDigits, htw, specPairs_filter_wireText ps tail hv ht,
    Option.map_some', List.nil_append]

/-! ## The claims about the decoder -/

/-- C1 (the decoder is "delete the non-hex characters, pair the digits, keep
64"): the code departs from that reading.  It takes whatever character follows
the first digit of a pair as the second one, so on `"4 1"` it produces the
byte 0x04 (and reports success) where the specified decoding produces 0x41,
and on the adapter message `"NO DATA"` it produces 0xDA, 0x0A where the
specified decoding produces 0xDA alone. -/
theorem C1_decoder_differs_from_spec :
    ParseHexResponse (cstr "4 1") = some (true, [0x04]) ∧
    specParseHex (cstr "4 1") = [0x41] ∧
    ParseHexResponse (cstr "NO DATA\r\r>") = some (true, [0xDA, 0x0A]) ∧
    specParseHex (cstr "NO DATA\r\r>") = [0xDA] := by
  decide

/-- C2 (round trip on the wire format): a list of at most 64 bytes, each
written as two hex digits in either case, with any runs of non-hex characters
before, between and after the pairs, is decoded back to exactly that list, and
the decoder reports success iff the list is not empty. -/
theorem C2_wire_round_trip (ps : List WirePair) (tail : List Nat) (hlen : ps.length ≤ 64)
    (hv : ∀ p ∈ ps, p.Valid) (ht : ∀ c ∈ tail, IsSep c) :
    ParseHexResponse (wireText ps ++ tail) =
      some (decide (ps.map WirePair.byte ≠ []), ps.map WirePair.byte) := by
  rw [ParseHexResponse_eq,
    parseRec_wireText tail (parseRec_sep_tail tail ht) ps [] hv (by decide)]
  have htake : List.take 64 ([] ++ ps.map WirePair.byte) = ps.map WirePair.byte := by
    rw [List.nil_append, List.take_of_length_le (by simpa using hlen)]
  rw [htake]
  cases ps <;> simp

/-- C2, witness: `"41 0C 1A F8"` decodes to `[0x41, 0x0C, 0x1A, 0xF8]`. -/
theorem C2_wire_round_trip_witness :
    ParseHexResponse (cstr "41 0C 1A F8") = some (true, [0x41, 0x0C, 0x1A, 0xF8]) :=
  C2_wire_round_trip
    [⟨[], true, true, 0x41⟩, ⟨[32], true, true, 0x0C⟩, ⟨[32], true, true, 0x1A⟩,
      ⟨[32], true, true, 0xF8⟩] [] (by decide) (by decide) (by decide)

/-- C5 (fewer than two hex digits give an empty, failed decode): the code
departs from this.  The response `"1 "` holds a single hex digit, yet the
decoder takes the blank as the second digit of a pair, produces the byte 0x01
and reports success. -/
theorem C5_single_digit_decodes :
    (specHexDigits (cstr "1 ")).length = 1 ∧
    ParseHexResponse (cstr "1 ") = some (true, [0x01]) := by
  decide

/-- C6 (a trailing odd hex digit is dropped): for a text of complete hex pairs
separated by non-hex characters and followed by a run `tail` of non-hex
characters, appending one more hex digit does not change the decoded bytes. -/
theorem C6_trailing_digit_dropped (ps : List WirePair) (tail : List Nat) (d : Nat)
    (hv : ∀ p ∈ ps, p.Valid) (ht : ∀ c ∈ tail, IsSep c) (_hne : tail ≠ [])
    (_hd : isHexChar d = true) :
    ParseHexResponse ((wireText ps ++ tail) ++ [d]) = ParseHexResponse (wireText ps ++ tail) := by
  rw [ParseHexResponse_eq, ParseHexResponse_eq, List.append_assoc,
    parseRec_wireText (tail ++ [d]) (parseRec_sep_tail_digit tail ht d) ps [] hv (by decide),
    parseRec_wireText tail (parseRec_sep_tail tail ht) ps [] hv (by decide)]

/-- C6, witness: `"41 0C 1"` decodes to `[0x41, 0x0C]`, as `"41 0C "` does. -/
theorem C6_trailing_digit_dropped_witness :
    ParseHexResponse (cstr "41 0C 1") = ParseHexResponse (cstr "41 0C ") ∧
    ParseHexResponse (cstr "41 0C 1") = some (true, [0x41, 0x0C]) :=
  ⟨C6_trailing_digit_dropped [⟨[], true, true, 0x41⟩, ⟨[32], true, true, 0x0C⟩] [32] 49
    (by decide) (by decide) (by decide) (by decide), by decide⟩

/-! ## The claims about the PID extractors -/

theorem parse_bytes_eq (response b : List Nat)
    (h : (ParseHexResponse response).map Prod.snd = some b) :
    ParseHexResponse response = some (decide (b.length > 0), b) := by
  rw [ParseHexResponse_eq] at h ⊢
  simp only [Option.map_some', Option.some.injEq] at h
  rw [h]

/-- C3 (conversion table): when the command succeeds and the response decodes
to `0x41, PID, ...` with at least the required number of bytes, `OBD_ReadRPM`
returns `((b2 * 256) + b3) / 4` (truncating), `OBD_ReadSpeed` returns `b2` and
`OBD_ReadCoolantTemp` returns `b2 - 40`, whatever bytes `extra` follow. -/
theorem C3_conversion_table :
    (∀ (conn : OBDConnection) (uninit : List Nat) (ex : Exchange) (r : SendResult)
        (b2 b3 : Nat) (extra : List Nat),
        OBD_SendCommand conn (cstr "010C\r") uninit 256 ex = some r → r.ok = true →
        (ParseHexResponse r.response).map Prod.snd = some (0x41 :: 0x0C :: b2 :: b3 :: extra) →
        (OBD_ReadRPM conn uninit ex).map Reading.value =
          some (((b2 * 256 + b3) / 4 : Nat) : Int)) ∧
    (∀ (conn : OBDConnection) (uninit : List Nat) (ex : Exchange) (r : SendResult)
        (b2 : Nat) (extra : List Nat),
        OBD_SendCommand conn (cstr "010D\r") uninit 256 ex = some r → r.ok = true →
        (ParseHexResponse r.response).map Prod.snd = some (0x41 :: 0x0D :: b2 :: extra) →
        (OBD_ReadSpeed conn uninit ex).map Reading.value = some (b2 : Int)) ∧
    (∀ (conn : OBDConnection) (uninit : List Nat) (ex : Exchange) (r : SendResult)
        (b2 : Nat) (extra : List Nat),
        OBD_SendCommand conn (cstr "0105\r") uninit 256 ex = some r → r.ok = true →
        (ParseHexResponse r.response).map Prod.snd = some (0x41 :: 0x05 :: b2 :: extra) →
        (OBD_ReadCoolantTemp conn uninit ex).map Reading.value = some ((b2 : Int) - 40)) := by
  refine ⟨?_, ?_, ?_⟩
  · intro conn uninit ex r b2 b3 extra hs hok hp
    have hdiv : Int.tdiv ((b2 : Int) * 256 + (b3 : Int)) 4 = (((b2 * 256 + b3) / 4 : Nat) : Int) := by
      rw [Int.tdiv_eq_ediv (by omega) (by omega)]
      push_cast
      rfl
    simp only [OBD_ReadRPM, hs, hok, parse_bytes_eq _ _ hp, Option.some_bind, Option.map_some',
      Bool.true_eq_false, if_false, List.getD_cons_zero, List.getD_cons_succ, hdiv]
    split_ifs with h1 h2
    · simp at h1
    · rcases h2 with h | h | h
      · simp only [List.length_cons] at h; omega
      · exact absurd rfl h
      · exact absurd rfl h
    · rfl
  · intro conn uninit ex r b2 extra hs hok hp
    simp only [OBD_ReadSpeed, hs, hok, parse_bytes_eq _ _ hp, Option.some_bind, Option.map_some',
      Bool.true_eq_false, if_false, List.getD_cons_zero, List.getD_cons_succ]
    split_ifs with h1 h2
    · simp at h1
    · rcases h2 with h | h | h
      · simp only [List.length_cons] at h; omega
      · exact absurd rfl h
      · exact absurd rfl h
    · rfl
  · intro conn uninit ex r b2 extra hs hok hp
    simp only [OBD_ReadCoolantTemp, hs, hok, parse_bytes_eq _ _ hp, Option.some_bind,
      Option.map_some', Bool.true_eq_false, if_false, List.getD_cons_zero, List.getD_cons_succ]
    split_ifs with h1 h2
    · simp at h1
    · rcases h2 with h | h | h
      · simp only [List.length_cons] at h; omega
      · exact absurd rfl h
      · exact absurd rfl h
    · rfl

set_option maxRecDepth 100000 in
/-- C3, witness: the responses `"41 0C 1A F8"`, `"41 0D 50"` and `"41 05 7D"`
give 1726 rpm, 80 km/h and 85 degrees. -/
theorem C3_conversion_table_witness :
    (OBD_ReadRPM conn0 [] (replyOnce 5 "41 0C 1A F8")).map Reading.value = some 1726 ∧
    (OBD_ReadSpeed conn0 [] (replyOnce 5 "41 0D 50")).map Reading.value = some 80 ∧
    (OBD_ReadCoolantTemp conn0 [] (replyOnce 5 "41 05 7D")).map Reading.value = some 85 :=
  ⟨C3_conversion_table.1 conn0 [] (replyOnce 5 "41 0C 1A F8")
      ((OBD_SendCommand conn0 (cstr "010C\r") [] 256 (replyOnce 5 "41 0C 1A F8")).get
        (by decide)) 0x1A 0xF8 [] (by simp) (by decide) (by decide),
    C3_conversion_table.2.1 conn0 [] (replyOnce 5 "41 0D 50")
      ((OBD_SendCommand conn0 (cstr "010D\r") [] 256 (replyOnce 5 "41 0D 50")).get
        (by decide)) 0x50 [] (by simp) (by decide) (by decide),
    C3_conversion_table.2.2 conn0 [] (replyOnce 5 "41 05 7D")
      ((OBD_SendCommand conn0 (cstr "0105\r") [] 256 (replyOnce 5 "41 05 7D")).get
        (by decide)) 0x7D [] (by simp) (by decide) (by decide)⟩

/-- C4 (header validation): whatever the command returned, when the first two
decoded bytes are not `0x41, PID`, or fewer bytes were decoded than the
extractor needs (4 for RPM, 3 for speed and temperature), the extractor
returns -1. -/
theorem C4_header_validation :
    (∀ (conn : OBDConnection) (uninit : List Nat) (ex : Exchange) (r : SendResult)
        (b : List Nat),
        OBD_SendCommand conn (cstr "010C\r") uninit 256 ex = some r →
        (ParseHexResponse r.response).map Prod.snd = some b →
        b.take 2 ≠ [0x41, 0x0C] ∨ b.length < 4 →
        (OBD_ReadRPM conn uninit ex).map Reading.value = some (-1)) ∧
    (∀ (conn : OBDConnection) (uninit : List Nat) (ex : Exchange) (r : SendResult)
        (b : List Nat),
        OBD_SendCommand conn (cstr "010D\r") uninit 256 ex = some r →
        (ParseHexResponse r.response).map Prod.snd = some b →
        b.take 2 ≠ [0x41, 0x0D] ∨ b.length < 3 →
        (OBD_ReadSpeed conn uninit ex).map Reading.value = some (-1)) ∧
    (∀ (conn : OBDConnection) (uninit : List Nat) (ex : Exchange) (r : SendResult)
        (b : List Nat),
        OBD_SendCommand conn (cstr "0105\r") uninit 256 ex = some r →
        (ParseHexResponse r.response).map Prod.snd = some b →
        b.take 2 ≠ [0x41, 0x05] ∨ b.length < 3 →
        (OBD_ReadCoolantTemp conn uninit ex).map Reading.value = some (-1)) := by
  have key : ∀ (b : List Nat) (pid n : Nat), 2 ≤ n → (b.take 2 ≠ [0x41, pid] ∨ b.length < n) →
      (b.length < n ∨ b.getD 0 0 ≠ 0x41 ∨ b.getD 1 0 ≠ pid) := by
    intro b pid n hn h
    rcases h with h | h
    · match b, h with
      | [], _ => left; simp; omega
      | [_], _ => left; simp; omega
      | x :: y :: rest, h =>
        right
        simp only [List.take_succ_cons, List.take_zero, ne_eq, List.cons.injEq, and_true,
          not_and] at h
        by_cases hx : x = 0x41
        · right; simpa using h hx
        · left; simpa using hx
    · exact Or.inl h
  refine ⟨?_, ?_, ?_⟩
  · intro conn uninit ex r b hs hp hbad
    have hb := key b 0x0C 4 (by decide) hbad
    simp only [OBD_ReadRPM, hs, parse_bytes_eq _ _ hp, Option.some_bind, Option.map_some']
    split_ifs <;> rfl
  · intro conn uninit ex r b hs hp hbad
    have hb := key b 0x0D 3 (by decide) hbad
    simp only [OBD_ReadSpeed, hs, parse_bytes_eq _ _ hp, Option.some_bind, Option.map_some']
    split_ifs <;> rfl
  · intro conn uninit ex r b hs hp hbad
    have hb := key b 0x05 3 (by decide) hbad
    simp only [OBD_ReadCoolantTemp, hs, parse_bytes_eq _ _ hp, Option.some_bind, Option.map_some']
    split_ifs <;> rfl

set_option maxRecDepth 100000 in
/-- C4, witness: a wrong PID, a negative-response header and a short response
all give -1. -/
theorem C4_header_validation_witness :
    (OBD_ReadRPM conn0 [] (replyOnce 5 "41 0D 1A F8\r\r>")).map Reading.value = some (-1) ∧
    (OBD_ReadSpeed conn0 [] (replyOnce 5 "7F 01 12\r\r>")).map Reading.value = some (-1) ∧
    (OBD_ReadCoolantTemp conn0 [] (replyOnce 5 "41 05\r\r>")).map Reading.value = some (-1) :=
  ⟨C4_header_validation.1 conn0 [] (replyOnce 5 "41 0D 1A F8\r\r>")
      ((OBD_SendCommand conn0 (cstr "010C\r") [] 256 (replyOnce 5 "41 0D 1A F8\r\r>")).get
        (by decide)) [0x41, 0x0D, 0x1A, 0xF8] (by simp) (by decide) (by decide),
    C4_header_validation.2.1 conn0 [] (replyOnce 5 "7F 01 12\r\r>")
      ((OBD_SendCommand conn0 (cstr "010D\r") [] 256 (replyOnce 5 "7F 01 12\r\r>")).get
        (by decide)) [0x7F, 0x01, 0x12] (by simp) (by decide) (by decide),
    C4_header_validation.2.2 conn0 [] (replyOnce 5 "41 05\r\r>")
      ((OBD_SendCommand conn0 (cstr "0105\r") [] 256 (replyOnce 5 "41 05\r\r>")).get
        (by decide)) [0x41, 0x05] (by simp) (by decide) (by decide)⟩

/-! ## The claims about the poller and the connection -/

set_option maxRecDepth 100000 in
/-- C7 (stale values persist across failures): the code departs from this for
the coolant temperature.  In a cycle whose coolant query times out (the other
two queries succeed), `OBD_ReadCoolantTemp` returns -1, the guard `temp >= -40`
lets it through, and `targetTemp`, 20 before the cycle, is -1 after it. -/
theorem C7_failed_coolant_query_overwrites :
    (OBD_ReadCoolantTemp conn0 [] (devNoCoolant (cstr "0105\r"))).map Reading.value =
      some (-1) ∧
    (OBDReadThread_cycle ⟨800, 10, 20, conn0, true⟩ [] devNoCoolant).map
      (fun x => (x.1.targetRPM, x.1.targetSpeed, x.1.targetTemp)) = some (1726, 80, -1) := by
  decide

/-- What the RPM and speed guards of the poller do keep: a failed RPM or speed
query (value -1) leaves its target as it was before the cycle. -/
theorem OBDReadThread_cycle_rpm_speed_stale (tach : Tachometer) (uninit : List Nat)
    (dev : List Nat → Exchange) (rpm speed temp : Reading)
    (h1 : OBD_ReadRPM tach.obd uninit (dev (cstr "010C\r")) = some rpm)
    (h2 : OBD_ReadSpeed rpm.conn uninit (dev (cstr "010D\r")) = some speed)
    (h3 : OBD_ReadCoolantTemp speed.conn uninit (dev (cstr "0105\r")) = some temp) :
    ∃ out, OBDReadThread_cycle tach uninit dev = some out ∧
      (rpm.value = -1 → out.1.targetRPM = tach.targetRPM) ∧
      (speed.value = -1 → out.1.targetSpeed = tach.targetSpeed) ∧
      (temp.value = -1 → out.1.targetTemp = -1) := by
  simp only [OBDReadThread_cycle, h1, h2, h3, Option.some_bind, Option.map_some']
  refine ⟨_, rfl, ?_, ?_, ?_⟩
  · intro h
    simp only [h]
    split_ifs <;> first | rfl | omega
  · intro h
    simp only [h]
    split_ifs <;> first | rfl | omega
  · intro h
    simp only [h]
    split_ifs <;> first | rfl | omega

/-- C8 (`OBD_Init` succeeds when the device opens and answers the reset): the
code departs from this.  `OBD_Init` clears `connected` before it sends `ATZ`,
and `OBD_SendCommand` refuses to send on a connection that is not connected,
so whatever the device does `OBD_Init` returns false, leaves `connected` false
and never writes a command. -/
theorem C8_init_never_succeeds (conn : OBDConnection) (device_path : List Nat) (openFd : Int)
    (uninit : List Nat) (dev : List Nat → Exchange) :
    ∃ res, OBD_Init conn device_path openFd uninit dev = some res ∧ res.ok = false ∧
      res.conn.connected = false ∧ ∀ c n, IOEvent.write c n ∉ res.trace := by
  by_cases h : openFd = -1
  · have e : OBD_Init conn device_path openFd uninit dev =
        some ⟨false, ⟨openFd, false, strncpy conn.device_path device_path 255⟩,
          [IOEvent.open device_path, IOEvent.log "Error opening device\n"]⟩ := by
      simp [OBD_Init, h]
    exact ⟨_, e, rfl, rfl, by simp⟩
  · have e : OBD_Init conn device_path openFd uninit dev =
        some ⟨false, ⟨openFd, false, strncpy conn.device_path device_path 255⟩,
          [IOEvent.open device_path, IOEvent.configure, IOEvent.flush,
            IOEvent.log "Failed to reset ELM327\n", IOEvent.close]⟩ := by
      simp [OBD_Init, h, OBD_SendCommand]
    exact ⟨_, e, rfl, rfl, by simp⟩

/-! ## The claims about the command channel -/

theorem received_append (t1 t2 : List IOEvent) :
    received (t1 ++ t2) = received t1 ++ received t2 := by
  induction t1 with
  | nil => rfl
  | cons e es ih => cases e <;> simp [received, ih]

theorem received_sleep (t : List IOEvent) (usec : Nat) :
    received (t ++ [IOEvent.sleep usec]) = received t := by
  rw [received_append]; simp [received]

theorem received_eq_nil_iff (t : List IOEvent) :
    received t = [] ↔ ∀ count res, IOEvent.read count res ∈ t → res.bytes = [] := by
  induction t with
  | nil => simp [received]
  | cons e es ih =>
    cases e <;> simp [received, ih]
    rename_i count res
    constructor
    · rintro ⟨h1, h2⟩ c r (⟨-, rfl⟩ | hmem)
      · exact h1
      · exact h2 c r hmem
    · intro h
      exact ⟨h count res (Or.inl ⟨rfl, rfl⟩), fun c r hmem => h c r (Or.inr hmem)⟩

theorem ReadResult.pos_n {r : ReadResult} (h : r.n > 0) : r.n.toNat = r.bytes.length := by
  cases r with
  | error => simp [ReadResult.n] at h
  | data bs => simp [ReadResult.n, ReadResult.bytes]

theorem ReadResult.bytes_of_not_pos {r : ReadResult} (h : ¬ r.n > 0) : r.bytes = [] := by
  cases r with
  | error => rfl
  | data bs =>
    simp only [ReadResult.n, gt_iff_lt, Int.Nat.cast_ofNat_Int, not_lt] at h
    have : bs.length = 0 := by omega
    simpa [ReadResult.bytes] using this

/-- Storing `bs` right after the bytes received so far keeps the buffer in the
shape "received bytes, zeros, rest". -/
theorem writeAt_received (R bs rest : List Nat) (k n : Nat) (hn : n = R.length)
    (h : bs.length ≤ k) :
    writeAt (R ++ List.replicate k 0 ++ rest) n bs =
      (R ++ bs) ++ List.replicate (k - bs.length) 0 ++ rest := by
  subst hn
  unfold writeAt
  have h1 : (R ++ List.replicate k 0 ++ rest).take R.length = R := by
    rw [List.append_assoc, List.take_left]
  have h2 : (R ++ List.replicate k 0 ++ rest).drop (R.length + bs.length) =
      List.replicate (k - bs.length) 0 ++ rest := by
    rw [List.append_assoc, ← List.drop_drop, List.drop_left,
      List.drop_append_of_le_length (by simpa using h), List.drop_replicate]
  rw [h1, h2]
  simp only [List.append_assoc]

/-- The read loop against a well-behaved device: it stops, the count `total`
stays inside the buffer, and the buffer holds the received bytes followed by
zeros. -/
theorem readLoop_received (ex : Exchange) (size : Nat) (rest : List Nat)
    (hwb : ex.WellBehaved) :
    ∀ (fuel total attempts : Nat) (response : List Nat) (trace : List IOEvent),
      50 ≤ attempts + fuel → total + 1 ≤ size → total = (received trace).length →
      response = received trace ++ List.replicate (size - total) 0 ++ rest →
      ∃ st, readLoop ex size (fuel + 1) total attempts response trace = some st ∧
        st.total + 1 ≤ size ∧ st.total = (received st.trace).length ∧
        st.response = received st.trace ++ List.replicate (size - st.total) 0 ++ rest := by
  intro fuel
  induction fuel with
  | zero =>
    intro total attempts response trace hfuel hsz htot hresp
    have hcond : ¬ ((total : Int) < (size : Int) - 1 ∧ attempts < 50) := by omega
    exact ⟨⟨total, response, trace⟩, by simp [readLoop, hcond], hsz, htot, hresp⟩
  | succ fuel ih =>
    intro total attempts response trace hfuel hsz htot hresp
    unfold readLoop
    by_cases hcond : (total : Int) < (size : Int) - 1 ∧ attempts < 50
    · simp only [hcond, and_self, if_true]
      have hlen := hwb attempts (size - total - 1)
      generalize ex.read attempts (size - total - 1) = r at hlen ⊢
      by_cases hn : r.n > 0
      · have hnat := ReadResult.pos_n hn
        have hrec : received (trace ++ [IOEvent.read (size - total - 1) r]) =
            received trace ++ r.bytes := by
          rw [received_append]; simp [received]
        have hresp1 : writeAt response total r.bytes =
            received (trace ++ [IOEvent.read (size - total - 1) r]) ++
              List.replicate (size - (total + r.n.toNat)) 0 ++ rest := by
          rw [hresp, writeAt_received _ _ _ _ _ htot (by omega), hrec, hnat]
          congr 3
          omega
        have htot1 : total + r.n.toNat =
            (received (trace ++ [IOEvent.read (size - total - 1) r])).length := by
          rw [hrec, hnat, htot]
          simp
        simp only [hn, if_true]
        have hsz1 : total + r.n.toNat + 1 ≤ size := by omega
        split
        · exact ⟨_, rfl, hsz1, htot1, hresp1⟩
        · refine ih _ _ _ _ (by omega) hsz1 ?_ ?_
          · rw [received_sleep]; exact htot1
          · rw [received_sleep]; exact hresp1
      · have hb := ReadResult.bytes_of_not_pos hn
        have hrec : received (trace ++ [IOEvent.read (size - total - 1) r]) = received trace := by
          rw [received_append]; simp [received, hb]
        simp only [hn, if_false]
        refine ih _ _ _ _ (by omega) hsz ?_ ?_
        · rw [received_sleep, hrec]; exact htot
        · rw [received_sleep, hrec]; exact hresp
    · exact ⟨⟨total, response, trace⟩, by simp [hcond], hsz, htot, hresp⟩

/-- The read loop never runs out of fuel, whatever the device does: every
pass that does not leave the loop counts one more attempt. -/
theorem readLoop_terminates (ex : Exchange) (size : Nat) :
    ∀ (fuel total attempts : Nat) (response : List Nat) (trace : List IOEvent),
      50 ≤ attempts + fuel →
      (readLoop ex size (fuel + 1) total attempts response trace).isSome = true := by
  intro fuel
  induction fuel with
  | zero =>
    intro total attempts response trace hfuel
    have hcond : ¬ ((total : Int) < (size : Int) - 1 ∧ attempts < 50) := by omega
    simp [readLoop, hcond]
  | succ fuel ih =>
    intro total attempts response trace hfuel
    unfold readLoop
    by_cases hcond : (total : Int) < (size : Int) - 1 ∧ attempts < 50
    · simp only [hcond, and_self, if_true]
      split_ifs
      · rfl
      · exact ih _ _ _ _ (by omega)
      · exact ih _ _ _ _ (by omega)
    · simp [hcond]

/-- The function `OBD_SendCommand` always returns. -/
theorem OBD_SendCommand_terminates (conn : OBDConnection) (cmd response : List Nat)
    (response_size : Nat) (ex : Exchange) :
    (OBD_SendCommand conn cmd response response_size ex).isSome = true := by
  have h := readLoop_terminates ex response_size 50 0 0 (memsetZero response response_size)
    [IOEvent.flush, IOEvent.write cmd (strlen cmd), IOEvent.sleep 100000] (by omega)
  by_cases hc : conn.connected = false
  · simp [OBD_SendCommand, hc]
  · by_cases hw : ex.written = (strlen cmd : Int)
    · simpa [OBD_SendCommand, hc, hw] using h
    · simp [OBD_SendCommand, hc, hw]

/-- Writing the terminating NUL right after the received bytes changes nothing:
the byte there is a zero of the `memset` already. -/
theorem set_nul_received (R rest : List Nat) (k n : Nat) (hn : n = R.length) (hk : 1 ≤ k) :
    (R ++ List.replicate k 0 ++ rest).set n 0 = R ++ List.replicate k 0 ++ rest := by
  subst hn
  obtain ⟨k, rfl⟩ : ∃ j, k = j + 1 := ⟨k - 1, by omega⟩
  rw [List.append_assoc, List.set_append_right _ _ (Nat.le_refl _)]
  simp [List.replicate_succ]

theorem replyOnce_wellBehaved (len : Nat) (s : String) : (replyOnce len s).WellBehaved := by
  intro attempts count
  unfold replyOnce
  by_cases h : attempts = 0
  · simp only [h, if_true, ReadResult.bytes, List.length_take]
    omega
  · simp [h, ReadResult.bytes]

/-- C9 (success iff some byte arrived): on a connected connection, with the
command fully written and a buffer of at least 2 bytes, `OBD_SendCommand`
returns, and it returns true exactly when the reads delivered at least one
byte, prompt or no prompt; it returns false exactly when every read delivered
nothing; and the buffer then holds the received bytes in order, followed by
zeros up to `response_size`. -/
theorem C9_success_iff_bytes_received (conn : OBDConnection) (cmd response : List Nat)
    (response_size : Nat) (ex : Exchange) (hc : conn.connected = true)
    (hw : ex.written = (strlen cmd : Int)) (hs : 2 ≤ response_size) (hwb : ex.WellBehaved) :
    ∃ r, OBD_SendCommand conn cmd response response_size ex = some r ∧
      (r.ok = true ↔ received r.trace ≠ []) ∧
      (r.ok = false ↔ ∀ count res, IOEvent.read count res ∈ r.trace → res.bytes = []) ∧
      r.response = received r.trace ++
        List.replicate (response_size - (received r.trace).length) 0 ++
          response.drop response_size := by
  obtain ⟨st, hst, h1, h2, h3⟩ := readLoop_received ex response_size
    (response.drop response_size) hwb 50 0 0 (memsetZero response response_size)
    [IOEvent.flush, IOEvent.write cmd (strlen cmd), IOEvent.sleep 100000]
    (by omega) (by omega) (by simp [received]) (by simp [memsetZero, received])
  have hset : st.response.set st.total 0 = st.response := by
    rw [h3]
    exact set_nul_received _ _ _ _ h2 (by omega)
  have hsend : OBD_SendCommand conn cmd response response_size ex =
      some ⟨decide (st.total > 0), conn, st.response, st.trace⟩ := by
    simp only [OBD_SendCommand, hc, hw, Bool.true_eq_false, if_false, ne_eq, not_true_eq_false,
      List.cons_append, List.nil_append, hst, Option.map_some', hset]
  have hok : (decide (st.total > 0) = true ↔ received st.trace ≠ []) := by
    rw [decide_eq_true_iff, h2]
    exact List.length_pos
  refine ⟨_, hsend, hok, ?_, ?_⟩
  · rw [← received_eq_nil_iff]
    show decide (st.total > 0) = false ↔ _
    rw [decide_eq_false_iff_not, h2]
    simp [List.length_pos]
  · show st.response = _
    rw [h3, h2]

/-- C9, witness: the adapter sends `"41 0C"` and never a prompt; the command
still succeeds and the buffer holds those five bytes. -/
theorem C9_success_iff_bytes_received_witness :
    ∃ r, OBD_SendCommand conn0 (cstr "010C\r") [] 256 (replyOnce 5 "41 0C") = some r ∧
      (r.ok = true ↔ received r.trace ≠ []) ∧
      (r.ok = false ↔ ∀ count res, IOEvent.read count res ∈ r.trace → res.bytes = []) ∧
      r.response = received r.trace ++ List.replicate (256 - (received r.trace).length) 0 ++
        ([] : List Nat).drop 256 :=
  C9_success_iff_bytes_received conn0 (cstr "010C\r") [] 256 (replyOnce 5 "41 0C") rfl
    (by decide) (by decide) (replyOnce_wellBehaved 5 "41 0C")

/-- C10 (no read without a connection and a complete write): on a connection
that is not connected `OBD_SendCommand` returns false with no flush, write or
read; when the write returns a count other than `strlen(cmd)` it returns false
with no read; in both cases the caller's buffer is as before; and whenever a
read is attempted, the connection is connected and the write was complete. -/
theorem C10_no_read_without_write (conn : OBDConnection) (cmd response : List Nat)
    (response_size : Nat) (ex : Exchange) :
    (conn.connected = false →
      OBD_SendCommand conn cmd response response_size ex = some ⟨false, conn, response, []⟩) ∧
    (conn.connected = true → ex.written ≠ (strlen cmd : Int) →
      ∃ r, OBD_SendCommand conn cmd response response_size ex = some r ∧ r.ok = false ∧
        r.response = response ∧ ∀ count res, IOEvent.read count res ∉ r.trace) ∧
    (∀ r count res, OBD_SendCommand conn cmd response response_size ex = some r →
      IOEvent.read count res ∈ r.trace →
      conn.connected = true ∧ ex.written = (strlen cmd : Int)) := by
  refine ⟨?_, ?_, ?_⟩
  · intro hc
    simp [OBD_SendCommand, hc]
  · intro hc hw
    refine ⟨⟨false, conn, response,
      [IOEvent.flush, IOEvent.write cmd (strlen cmd), IOEvent.log "Failed to write command\n"]⟩,
      ?_, rfl, rfl, ?_⟩
    · simp [OBD_SendCommand, hc, hw]
    · simp
  · intro r count res hr hmem
    by_cases hc : conn.connected = true
    · by_cases hw : ex.written = (strlen cmd : Int)
      · exact ⟨hc, hw⟩
      · simp only [OBD_SendCommand, hc, Bool.true_eq_false, if_false, ne_eq, hw,
          not_false_eq_true, if_true, Option.some.injEq] at hr
        subst hr
        simp at hmem
    · have hc' : conn.connected = false := by simpa using hc
      simp only [OBD_SendCommand, hc', if_true, Option.some.injEq] at hr
      subst hr
      simp at hmem

set_option maxRecDepth 100000 in
/-- C10, witness: a closed connection and a short write (3 of 5 bytes) both
fail without a read and leave the buffer `[7, 7]` alone; a normal exchange
does read. -/
theorem C10_no_read_without_write_witness :
    OBD_SendCommand ⟨3, false, []⟩ (cstr "010C\r") [7, 7] 2 (silent 5) =
      some ⟨false, ⟨3, false, []⟩, [7, 7], []⟩ ∧
    (∃ r, OBD_SendCommand conn0 (cstr "010C\r") [7, 7] 2 (silent 3) = some r ∧ r.ok = false ∧
      r.response = [7, 7] ∧ ∀ count res, IOEvent.read count res ∉ r.trace) ∧
    (conn0.connected = true ∧ (replyOnce 5 ">").written = (strlen (cstr "010C\r") : Int)) :=
  ⟨(C10_no_read_without_write ⟨3, false, []⟩ (cstr "010C\r") [7, 7] 2 (silent 5)).1 rfl,
    (C10_no_read_without_write conn0 (cstr "010C\r") [7, 7] 2 (silent 3)).2.1 rfl (by decide),
    (C10_no_read_without_write conn0 (cstr "010C\r") [7, 7] 2 (replyOnce 5 ">")).2.2
      ((OBD_SendCommand conn0 (cstr "010C\r") [7, 7] 2 (replyOnce 5 ">")).get (by decide))
      1 (ReadResult.data [62]) (by simp) (by decide)⟩

/-! ## Bounds of the decoder -/

theorem parseLoop_length : ∀ (fuel : Nat) (ptr bytes out : List Nat),
    parseLoop fuel ptr bytes = some out → bytes.length < 64 → out.length ≤ 64
  | 0, _, _, _, h, _ => by simp [parseLoop] at h
  | fuel + 1, ptr, bytes, out, h, hb => by
    unfold parseLoop at h
    by_cases h1 : deref ptr = 0
    · simp only [h1, if_true, Option.some.injEq] at h
      subst h; omega
    · simp only [h1, if_false] at h
      by_cases h2 : deref (skipNonHex ptr) = 0
      · simp only [h2, if_true, Option.some.injEq] at h
        subst h; omega
      · simp only [h2, if_false] at h
        by_cases h3 : deref (skipNonHex ptr).tail = 0
        · simp only [h3, if_true, Option.some.injEq] at h
          subst h; omega
        · simp only [h3, if_false] at h
          split_ifs at h with h4
          · simp only [Option.some.injEq] at h
            subst h
            simp only [List.length_append, List.length_singleton]
            omega
          · refine parseLoop_length fuel _ _ out h ?_
            simp only [List.length_append, List.length_singleton, ge_iff_le, not_le] at h4 ⊢
            exact h4

/-- C17 (the decoder is total and bounded): for every input `ParseHexResponse`
returns; it produces at most 64 bytes; the byte number `i` it produces is
stored at index `i` of the output array, so every index written is at most
63; and it returns true iff it produced at least one byte. -/
theorem C17_decoder_total_and_bounded (response : List Nat) :
    ∃ ok bytes, ParseHexResponse response = some (ok, bytes) ∧ bytes.length ≤ 64 ∧
      (∀ i, i < bytes.length → i ≤ 63) ∧ (ok = true ↔ bytes.length > 0) := by
  have hloop := parseLoop_eq_parseRec (response.length + 1) response [] (Nat.lt_succ_self _)
  have hlen := parseLoop_length _ _ _ _ hloop (by decide)
  refine ⟨decide ((parseRec response []).length > 0), parseRec response [],
    ParseHexResponse_eq response, hlen, fun i hi => by omega, ?_⟩
  simp

/-! ## The claims about the connection state and the echo -/

/-- The decoder looks at the response as a C string: only the characters
before the first NUL count. -/
theorem parseRec_takeWhile : ∀ (n : Nat) (l bytes : List Nat), l.length ≤ n →
    parseRec (l.takeWhile (fun c => c ≠ 0)) bytes = parseRec l bytes
  | _, [], _, _ => by simp
  | _, [c], bytes, _ => by
    by_cases hc : c = 0 <;> simp [List.takeWhile, hc, parseRec]
  | 0, _ :: _ :: _, _, h => by simp at h
  | n + 1, c :: c1 :: rest, bytes, h => by
    have hlen1 : (c1 :: rest).length ≤ n := by simp only [List.length_cons] at h ⊢; omega
    have hlen2 : rest.length ≤ n := by simp only [List.length_cons] at h; omega
    by_cases hc : c = 0
    · simp [List.takeWhile, hc, parseRec]
    · by_cases hx : isHexChar c = false
      · have ih := parseRec_takeWhile n (c1 :: rest) bytes hlen1
        rw [parseRec_sep_cons c _ bytes hc hx, ← ih]
        simp only [List.takeWhile_cons (a := c), ne_eq, hc, not_false_eq_true, decide_True, if_true]
        rw [parseRec_sep_cons c _ bytes hc hx]
      · have hx1 : isHexChar c = true := by simpa using hx
        by_cases hc1 : c1 = 0
        · simp [List.takeWhile, hc, hc1, parseRec, hx1]
        · have ih := fun acc => parseRec_takeWhile n rest acc hlen2
          simp only [List.takeWhile_cons (a := c), List.takeWhile_cons (a := c1), ne_eq, hc, hc1,
            not_false_eq_true, decide_True, if_true, parseRec, if_false, hx1, ih,
            Bool.true_eq_false]

theorem ParseHexResponse_takeWhile (response : List Nat) :
    ParseHexResponse (response.takeWhile (fun c => c ≠ 0)) = ParseHexResponse response := by
  rw [ParseHexResponse_eq, ParseHexResponse_eq, parseRec_takeWhile _ response [] (Nat.le_refl _)]

/-- The bytes decoded from a response whose text starts with an echoed query
`01 PID`: the two bytes of the echo, then the bytes of the payload, 64 bytes
at most. -/
theorem parse_echoed (response : List Nat) (pid : Nat) (upper : Bool) (hpid : pid < 256)
    (payload : List WirePair) (tail : List Nat) (hv : ∀ p ∈ payload, p.Valid)
    (ht : ∀ c ∈ tail, IsSep c)
    (htext : response.takeWhile (fun c => c ≠ 0) =
      wireText (⟨[], true, true, 0x01⟩ :: ⟨[], true, upper, pid⟩ :: payload) ++ tail) :
    ParseHexResponse response =
      some (true, (0x01 :: pid :: payload.map WirePair.byte).take 64) := by
  have hv2 : ∀ p ∈ (⟨[], true, true, 0x01⟩ :: ⟨[], true, upper, pid⟩ :: payload : List WirePair),
      p.Valid := by
    intro p hp
    simp only [List.mem_cons] at hp
    rcases hp with rfl | rfl | hp
    · exact ⟨by decide, by simp⟩
    · exact ⟨hpid, by simp⟩
    · exact hv p hp
  rw [← ParseHexResponse_takeWhile, htext, ParseHexResponse_eq,
    parseRec_wireText tail (parseRec_sep_tail tail ht) _ [] hv2 (by decide)]
  have hbytes : List.take 64 ([] ++ List.map WirePair.byte
      (⟨[], true, true, 0x01⟩ :: ⟨[], true, upper, pid⟩ :: payload)) =
      0x01 :: pid :: (payload.map WirePair.byte).take 62 := rfl
  have hcut : (0x01 :: pid :: payload.map WirePair.byte).take 64 =
      0x01 :: pid :: (payload.map WirePair.byte).take 62 := rfl
  rw [hbytes, hcut]
  simp

/-- C13, as the code has it (the echo is not skipped): the echoed query is made
of hex digits, so the decoder turns it into the bytes 0x01, PID ahead of the
payload.  For every response whose text is the echo `010C`, `010D` or `0105`,
then any payload in wire format (line breaks first) and any trailing non-hex
characters such as the prompt, the decoded bytes are 0x01, PID followed by the
bytes of the payload (64 bytes at most in all), and the extractor, which
finds 0x01 where it expects 0x41, returns -1. -/
theorem C13_echoed_query_gives_sentinel :
    (∀ (conn : OBDConnection) (uninit : List Nat) (ex : Exchange) (r : SendResult)
        (payload : List WirePair) (tail : List Nat),
        OBD_SendCommand conn (cstr "010C\r") uninit 256 ex = some r →
        r.response.takeWhile (fun c => c ≠ 0) = cstr "010C" ++ (wireText payload ++ tail) →
        (∀ p ∈ payload, p.Valid) → (∀ c ∈ tail, IsSep c) →
        (ParseHexResponse r.response).map Prod.snd =
          some ((0x01 :: 0x0C :: payload.map WirePair.byte).take 64) ∧
        (OBD_ReadRPM conn uninit ex).map Reading.value = some (-1)) ∧
    (∀ (conn : OBDConnection) (uninit : List Nat) (ex : Exchange) (r : SendResult)
        (payload : List WirePair) (tail : List Nat),
        OBD_SendCommand conn (cstr "010D\r") uninit 256 ex = some r →
        r.response.takeWhile (fun c => c ≠ 0) = cstr "010D" ++ (wireText payload ++ tail) →
        (∀ p ∈ payload, p.Valid) → (∀ c ∈ tail, IsSep c) →
        (ParseHexResponse r.response).map Prod.snd =
          some ((0x01 :: 0x0D :: payload.map WirePair.byte).take 64) ∧
        (OBD_ReadSpeed conn uninit ex).map Reading.value = some (-1)) ∧
    (∀ (conn : OBDConnection) (uninit : List Nat) (ex : Exchange) (r : SendResult)
        (payload : List WirePair) (tail : List Nat),
        OBD_SendCommand conn (cstr "0105\r") uninit 256 ex = some r →
        r.response.takeWhile (fun c => c ≠ 0) = cstr "0105" ++ (wireText payload ++ tail) →
        (∀ p ∈ payload, p.Valid) → (∀ c ∈ tail, IsSep c) →
        (ParseHexResponse r.response).map Prod.snd =
          some ((0x01 :: 0x05 :: payload.map WirePair.byte).take 64) ∧
        (OBD_ReadCoolantTemp conn uninit ex).map Reading.value = some (-1)) := by
  have hcut : ∀ (pid : Nat) (l : List Nat),
      (0x01 :: pid :: l).take 64 = 0x01 :: pid :: l.take 62 := fun _ _ => rfl
  refine ⟨?_, ?_, ?_⟩
  · intro conn uninit ex r payload tail hs htext hv ht
    have hp := parse_echoed r.response 0x0C true (by decide) payload tail hv ht htext
    refine ⟨by rw [hp]; rfl, ?_⟩
    rw [hcut] at hp
    simp only [OBD_ReadRPM, hs, hp, Option.some_bind, Option.map_some']
    split_ifs with h1 h2 h3
    · rfl
    · rfl
    · rfl
    · simp at h3
  · intro conn uninit ex r payload tail hs htext hv ht
    have hp := parse_echoed r.response 0x0D true (by decide) payload tail hv ht htext
    refine ⟨by rw [hp]; rfl, ?_⟩
    rw [hcut] at hp
    simp only [OBD_ReadSpeed, hs, hp, Option.some_bind, Option.map_some']
    split_ifs with h1 h2 h3
    · rfl
    · rfl
    · rfl
    · simp at h3
  · intro conn uninit ex r payload tail hs htext hv ht
    have hp := parse_echoed r.response 0x05 true (by decide) payload tail hv ht htext
    refine ⟨by rw [hp]; rfl, ?_⟩
    rw [hcut] at hp
    simp only [OBD_ReadCoolantTemp, hs, hp, Option.some_bind, Option.map_some']
    split_ifs with h1 h2 h3
    · rfl
    · rfl
    · rfl
    · simp at h3

set_option maxRecDepth 100000 in
/-- C13, witness: echo, line break, payload and prompt decode to the echo bytes
followed by the payload bytes and give -1, for each of the three queries. -/
theorem C13_echoed_query_gives_sentinel_witness :
    (((OBD_SendCommand conn0 (cstr "010C\r") [] 256 (replyOnce 5 "010C\r41 0C 1A F8\r\r>")).bind
        fun r => (ParseHexResponse r.response).map Prod.snd) =
        some [0x01, 0x0C, 0x41, 0x0C, 0x1A, 0xF8] ∧
      (OBD_ReadRPM conn0 [] (replyOnce 5 "010C\r41 0C 1A F8\r\r>")).map Reading.value =
        some (-1)) ∧
    (((OBD_SendCommand conn0 (cstr "010D\r") [] 256 (replyOnce 5 "010D\r41 0D 50\r\r>")).bind
        fun r => (ParseHexResponse r.response).map Prod.snd) =
        some [0x01, 0x0D, 0x41, 0x0D, 0x50] ∧
      (OBD_ReadSpeed conn0 [] (replyOnce 5 "010D\r41 0D 50\r\r>")).map Reading.value =
        some (-1)) ∧
    (((OBD_SendCommand conn0 (cstr "0105\r") [] 256 (replyOnce 5 "0105\r41 05 7D\r\r>")).bind
        fun r => (ParseHexResponse r.response).map Prod.snd) =
        some [0x01, 0x05, 0x41, 0x05, 0x7D] ∧
      (OBD_ReadCoolantTemp conn0 [] (replyOnce 5 "0105\r41 05 7D\r\r>")).map Reading.value =
        some (-1)) := by
  have h1 := C13_echoed_query_gives_sentinel.1 conn0 []
    (replyOnce 5 "010C\r41 0C 1A F8\r\r>")
    ((OBD_SendCommand conn0 (cstr "010C\r") [] 256
      (replyOnce 5 "010C\r41 0C 1A F8\r\r>")).get (by decide))
    [⟨[13], true, true, 0x41⟩, ⟨[32], true, true, 0x0C⟩, ⟨[32], true, true, 0x1A⟩,
      ⟨[32], true, true, 0xF8⟩]
    [13, 13, 62] (by simp) (by decide) (by decide) (by decide)
  have eh1 : OBD_SendCommand conn0 (cstr "010C\r") [] 256 (replyOnce 5 "010C\r41 0C 1A F8\r\r>") =
      some ((OBD_SendCommand conn0 (cstr "010C\r") [] 256
        (replyOnce 5 "010C\r41 0C 1A F8\r\r>")).get (by decide)) := by simp
  have h2 := C13_echoed_query_gives_sentinel.2.1 conn0 []
    (replyOnce 5 "010D\r41 0D 50\r\r>")
    ((OBD_SendCommand conn0 (cstr "010D\r") [] 256
      (replyOnce 5 "010D\r41 0D 50\r\r>")).get (by decide))
    [⟨[13], true, true, 0x41⟩, ⟨[32], true, true, 0x0D⟩, ⟨[32], true, true, 0x50⟩]
    [13, 13, 62] (by simp) (by decide) (by decide) (by decide)
  have eh2 : OBD_SendCommand conn0 (cstr "010D\r") [] 256 (replyOnce 5 "010D\r41 0D 50\r\r>") =
      some ((OBD_SendCommand conn0 (cstr "010D\r") [] 256
        (replyOnce 5 "010D\r41 0D 50\r\r>")).get (by decide)) := by simp
  have h3 := C13_echoed_query_gives_sentinel.2.2 conn0 []
    (replyOnce 5 "0105\r41 05 7D\r\r>")
    ((OBD_SendCommand conn0 (cstr "0105\r") [] 256
      (replyOnce 5 "0105\r41 05 7D\r\r>")).get (by decide))
    [⟨[13], true, true, 0x41⟩, ⟨[32], true, true, 0x05⟩, ⟨[32], true, true, 0x7D⟩]
    [13, 13, 62] (by simp) (by decide) (by decide) (by decide)
  have eh3 : OBD_SendCommand conn0 (cstr "0105\r") [] 256 (replyOnce 5 "0105\r41 05 7D\r\r>") =
      some ((OBD_SendCommand conn0 (cstr "0105\r") [] 256
        (replyOnce 5 "0105\r41 05 7D\r\r>")).get (by decide)) := by simp
  refine ⟨⟨?_, h1.2⟩, ⟨?_, h2.2⟩, ⟨?_, h3.2⟩⟩
  · rw [eh1]; exact h1.1
  · rw [eh2]; exact h2.1
  · rw [eh3]; exact h3.1

set_option maxRecDepth 100000 in
/-- C13 as stated (an echoed command is skipped) fails: with the echo ahead of
it the payload `41 0C 1A F8` gives -1, without the echo it gives 1726. -/
theorem C13_echo_changes_measurement :
    (OBD_ReadRPM conn0 [] (replyOnce 5 "010C\r41 0C 1A F8\r\r>")).map Reading.value =
      some (-1) ∧
    (OBD_ReadRPM conn0 [] (replyOnce 5 "41 0C 1A F8\r\r>")).map Reading.value = some 1726 := by
  decide

/-- C12, as the code has it: `OBD_SendCommand` and the three extractors leave
`connected` as it was; `OBD_Close` leaves it false, does nothing on a
connection that is not connected, so a second call changes nothing; and
`OBD_Init` leaves `connected` false whenever it returns failure, whatever the
flag was before. -/
theorem C12_connected_transitions :
    (∀ (conn : OBDConnection) (cmd response : List Nat) (response_size : Nat) (ex : Exchange)
        (r : SendResult),
        OBD_SendCommand conn cmd response response_size ex = some r →
        r.conn.connected = conn.connected) ∧
    (∀ (conn : OBDConnection) (uninit : List Nat) (ex : Exchange) (r : Reading),
        OBD_ReadRPM conn uninit ex = some r → r.conn.connected = conn.connected) ∧
    (∀ (conn : OBDConnection) (uninit : List Nat) (ex : Exchange) (r : Reading),
        OBD_ReadSpeed conn uninit ex = some r → r.conn.connected = conn.connected) ∧
    (∀ (conn : OBDConnection) (uninit : List Nat) (ex : Exchange) (r : Reading),
        OBD_ReadCoolantTemp conn uninit ex = some r → r.conn.connected = conn.connected) ∧
    (∀ conn : OBDConnection, (OBD_Close conn).1.connected = false ∧
        (conn.connected = false → OBD_Close conn = (conn, [])) ∧
        OBD_Close (OBD_Close conn).1 = ((OBD_Close conn).1, [])) ∧
    (∀ (conn : OBDConnection) (device_path : List Nat) (openFd : Int) (uninit : List Nat)
        (dev : List Nat → Exchange) (res : InitResult),
        OBD_Init conn device_path openFd uninit dev = some res → res.ok = false →
        res.conn.connected = false) := by
  have hsend : ∀ (conn : OBDConnection) (cmd response : List Nat) (response_size : Nat)
      (ex : Exchange) (r : SendResult),
      OBD_SendCommand conn cmd response response_size ex = some r → r.conn = conn := by
    intro conn cmd response response_size ex r h
    by_cases hc : conn.connected = false
    · simp only [OBD_SendCommand, hc, if_true, Option.some.injEq] at h
      rw [← h]
    · by_cases hw : ex.written = (strlen cmd : Int)
      · simp [OBD_SendCommand, hc, hw] at h
        obtain ⟨st, -, hst⟩ := h
        rw [← hst]
      · simp [OBD_SendCommand, hc, hw] at h
        rw [← h]
  refine ⟨fun conn cmd response response_size ex r h => by rw [hsend _ _ _ _ _ _ h],
    ?_, ?_, ?_, ?_, ?_⟩
  · intro conn uninit ex r h
    simp only [OBD_ReadRPM, Option.bind_eq_some] at h
    obtain ⟨s, hs, h⟩ := h
    have hc := hsend _ _ _ _ _ _ hs
    split_ifs at h
    · simp only [Option.some.injEq] at h; rw [← h, ← hc]
    · simp only [Option.map_eq_some'] at h
      obtain ⟨p, -, hp⟩ := h
      rw [← hp, ← hc]
      split_ifs <;> rfl
  · intro conn uninit ex r h
    simp only [OBD_ReadSpeed, Option.bind_eq_some] at h
    obtain ⟨s, hs, h⟩ := h
    have hc := hsend _ _ _ _ _ _ hs
    split_ifs at h
    · simp only [Option.some.injEq] at h; rw [← h, ← hc]
    · simp only [Option.map_eq_some'] at h
      obtain ⟨p, -, hp⟩ := h
      rw [← hp, ← hc]
      split_ifs <;> rfl
  · intro conn uninit ex r h
    simp only [OBD_ReadCoolantTemp, Option.bind_eq_some] at h
    obtain ⟨s, hs, h⟩ := h
    have hc := hsend _ _ _ _ _ _ hs
    split_ifs at h
    · simp only [Option.some.injEq] at h; rw [← h, ← hc]
    · simp only [Option.map_eq_some'] at h
      obtain ⟨p, -, hp⟩ := h
      rw [← hp, ← hc]
      split_ifs <;> rfl
  · intro conn
    cases hconn : conn.connected <;> simp [OBD_Close, hconn]
  · intro conn device_path openFd uninit dev res h _
    by_cases hfd : openFd = -1
    · simp only [OBD_Init, hfd, if_true, Option.some.injEq] at h
      rw [← h]
    · simp only [OBD_Init, hfd, if_false, OBD_SendCommand, if_true, Option.some_bind,
        Option.some.injEq] at h
      rw [← h]

set_option maxRecDepth 100000 in
/-- C12, witness: a command on a connected connection leaves it connected, the
three extractors too, `OBD_Close` twice is `OBD_Close` once, and `OBD_Init`
on a device that does not open leaves `connected` false. -/
theorem C12_connected_transitions_witness :
    ((OBD_SendCommand conn0 (cstr "010C\r") [] 256 (silent 5)).get (by decide)).conn.connected =
      conn0.connected ∧
    ((OBD_ReadRPM conn0 [] (silent 5)).get (by decide)).conn.connected = conn0.connected ∧
    ((OBD_ReadSpeed conn0 [] (silent 5)).get (by decide)).conn.connected = conn0.connected ∧
    ((OBD_ReadCoolantTemp conn0 [] (silent 5)).get (by decide)).conn.connected =
      conn0.connected ∧
    OBD_Close (OBD_Close conn0).1 = ((OBD_Close conn0).1, []) ∧
    ((OBD_Init conn0 (cstr "/dev/ttyUSB0") (-1) [] devBanner).get (by decide)).conn.connected =
      false :=
  ⟨C12_connected_transitions.1 conn0 (cstr "010C\r") [] 256 (silent 5) _ (by simp),
    C12_connected_transitions.2.1 conn0 [] (silent 5) _ (by simp),
    C12_connected_transitions.2.2.1 conn0 [] (silent 5) _ (by simp),
    C12_connected_transitions.2.2.2.1 conn0 [] (silent 5) _ (by simp),
    (C12_connected_transitions.2.2.2.2.1 conn0).2.2,
    C12_connected_transitions.2.2.2.2.2 conn0 (cstr "/dev/ttyUSB0") (-1) [] devBanner _
      (by simp) (by decide)⟩

set_option maxRecDepth 100000 in
/-- C12 as stated (`OBD_Init` on a connected connection never leaves it not
connected) fails: `OBD_Init` clears the flag on entry, and when the device does
not open it returns with the flag false. -/
theorem C12_init_resets_connected :
    conn0.connected = true ∧
    (OBD_Init conn0 (cstr "/dev/ttyUSB0") (-1) [] devBanner).map
      (fun res => (res.ok, res.conn.connected)) = some (false, false) := by
  decide

/-! ## The claim about the consumer side -/

/-- C15 (the consumer reads the targets under the mutex): the code departs
from this.  In OBD mode the main loop locks and at once unlocks the mutex,
with nothing in between, and reads `targetRPM`, `targetSpeed` and `targetTemp`
afterwards, when it no longer holds the lock. -/
theorem C15_consumer_reads_outside_lock (tach : Tachometer) (cur : Display) :
    (mainLoop_OBD_frame tach cur).2 =
      [FrameEvent.lock, FrameEvent.unlock, FrameEvent.readTarget Target.rpm,
        FrameEvent.readTarget Target.speed, FrameEvent.readTarget Target.temp] ∧
    readsUnderLock false (mainLoop_OBD_frame tach cur).2 = false := by
  constructor <;> rfl

/-! ## The read budget of the command channel -/

theorem readCount_append (t1 t2 : List IOEvent) :
    readCount (t1 ++ t2) = readCount t1 + readCount t2 := by
  induction t1 with
  | nil => simp [readCount]
  | cons e es ih =>
    cases e <;> simp [readCount, ih]
    omega

/-- The read loop, whatever the device does: it returns after at most 50 reads
counted from its start, and when it returns the prompt is in the buffer, or
50 attempts were made, or `total` has reached `response_size - 1`. -/
theorem readLoop_budget (ex : Exchange) (size base : Nat) :
    ∀ (fuel total attempts : Nat) (response : List Nat) (trace : List IOEvent),
      50 ≤ attempts + fuel → attempts ≤ 50 → readCount trace = base + attempts →
      ∃ st, readLoop ex size (fuel + 1) total attempts response trace = some st ∧
        readCount st.trace ≤ base + 50 ∧
        (strchr st.response 62 = true ∨ readCount st.trace = base + 50 ∨
          (st.total : Int) ≥ (size : Int) - 1) := by
  intro fuel
  induction fuel with
  | zero =>
    intro total attempts response trace hfuel hle hcount
    have hcond : ¬ ((total : Int) < (size : Int) - 1 ∧ attempts < 50) := by omega
    refine ⟨⟨total, response, trace⟩, by simp [readLoop, hcond], by simp only; omega, ?_⟩
    right; left
    simp only
    omega
  | succ fuel ih =>
    intro total attempts response trace hfuel hle hcount
    unfold readLoop
    by_cases hcond : (total : Int) < (size : Int) - 1 ∧ attempts < 50
    · simp only [hcond, and_self, if_true]
      generalize ex.read attempts (size - total - 1) = r
      have hc1 : readCount (trace ++ [IOEvent.read (size - total - 1) r]) =
          base + (attempts + 1) := by
        rw [readCount_append, hcount]; simp [readCount]; omega
      have hc2 : readCount (trace ++ [IOEvent.read (size - total - 1) r] ++
          [IOEvent.sleep 20000]) = base + (attempts + 1) := by
        rw [readCount_append, hc1]; simp [readCount]
      by_cases hn : r.n > 0
      · simp only [hn, if_true]
        split
        · rename_i hprompt
          exact ⟨_, rfl, by simp only [hc1]; omega, Or.inl hprompt⟩
        · exact ih _ _ _ _ (by omega) (by omega) hc2
      · simp only [hn, if_false]
        exact ih _ _ _ _ (by omega) (by omega) hc2
    · refine ⟨⟨total, response, trace⟩, by simp [hcond], by simp only; omega, ?_⟩
      simp only
      by_cases h50 : attempts < 50
      · right; right; omega
      · right; left; omega

/-- C16 (bounded read budget): on a connected connection with the command
fully written, whatever the device does (data, zero bytes or errors), the read
loop of `OBD_SendCommand` returns after at most 50 read attempts, and when it
returns a `>` is in the response, or 50 attempts were made, or `total` has
reached `response_size - 1`. -/
theorem C16_bounded_read_budget (conn : OBDConnection) (cmd response : List Nat)
    (response_size : Nat) (ex : Exchange) (hc : conn.connected = true)
    (hw : ex.written = (strlen cmd : Int)) :
    ∃ st, readLoop ex response_size 51 0 0 (memsetZero response response_size)
        [IOEvent.flush, IOEvent.write cmd (strlen cmd), IOEvent.sleep 100000] = some st ∧
      OBD_SendCommand conn cmd response response_size ex =
        some ⟨decide (st.total > 0), conn, st.response.set st.total 0, st.trace⟩ ∧
      readCount st.trace ≤ 50 ∧
      (strchr st.response 62 = true ∨ readCount st.trace = 50 ∨
        (st.total : Int) ≥ (response_size : Int) - 1) ∧
      (ex.WellBehaved → 1 ≤ response_size → st.total + 1 ≤ response_size) := by
  obtain ⟨st, hst, hle, hwhy⟩ := readLoop_budget ex response_size 0 50 0 0
    (memsetZero response response_size)
    [IOEvent.flush, IOEvent.write cmd (strlen cmd), IOEvent.sleep 100000]
    (by omega) (by omega) (by simp [readCount])
  refine ⟨st, hst, ?_, by omega, ?_, ?_⟩
  · simp only [OBD_SendCommand, hc, hw, Bool.true_eq_false, if_false, ne_eq, not_true_eq_false,
      List.cons_append, List.nil_append, hst, Option.map_some']
  · rcases hwhy with h | h | h
    · exact Or.inl h
    · exact Or.inr (Or.inl (by omega))
    · exact Or.inr (Or.inr h)
  · intro hwb hs
    obtain ⟨st1, hst1, h1, -, -⟩ := readLoop_received ex response_size
      (response.drop response_size) hwb 50 0 0 (memsetZero response response_size)
      [IOEvent.flush, IOEvent.write cmd (strlen cmd), IOEvent.sleep 100000]
      (by omega) (by omega) (by simp [received]) (by simp [memsetZero, received])
    rw [hst] at hst1
    simp only [Option.some.injEq] at hst1
    rw [hst1]
    exact h1

set_option maxRecDepth 100000 in
/-- C16, witness: a device that never sends anything is read 50 times; a device
that sends the prompt at once is read a single time. -/
theorem C16_bounded_read_budget_witness :
    (∃ st, readLoop (silent 5) 256 51 0 0 (memsetZero [] 256)
        [IOEvent.flush, IOEvent.write (cstr "010C\r") (strlen (cstr "010C\r")),
          IOEvent.sleep 100000] = some st ∧
      OBD_SendCommand conn0 (cstr "010C\r") [] 256 (silent 5) =
        some ⟨decide (st.total > 0), conn0, st.response.set st.total 0, st.trace⟩ ∧
      readCount st.trace ≤ 50 ∧
      (strchr st.response 62 = true ∨ readCount st.trace = 50 ∨
        (st.total : Int) ≥ ((256 : Nat) : Int) - 1) ∧
      ((silent 5).WellBehaved → 1 ≤ 256 → st.total + 1 ≤ 256)) ∧
    (OBD_SendCommand conn0 (cstr "010C\r") [] 256 (silent 5)).map
      (fun r => (r.ok, readCount r.trace)) = some (false, 50) ∧
    (OBD_SendCommand conn0 (cstr "010C\r") [] 256 (replyOnce 5 "41 0C 1A F8\r\r>")).map
      (fun r => (r.ok, readCount r.trace)) = some (true, 1) :=
  ⟨C16_bounded_read_budget conn0 (cstr "010C\r") [] 256 (silent 5) rfl (by decide),
    by decide, by decide⟩

/-! ## The reads of an exchange, one by one -/

/-- The ways to cut a trace that ends in `e` right before one of its events. -/
theorem split_snoc (t : List IOEvent) (e x : IOEvent) (pre post : List IOEvent)
    (h : t ++ [e] = pre ++ x :: post) :
    (post = [] ∧ t = pre ∧ e = x) ∨ ∃ post1, post = post1 ++ [e] ∧ t = pre ++ x :: post1 := by
  rcases List.eq_nil_or_concat post with rfl | ⟨post1, a, rfl⟩
  · left
    obtain ⟨h1, h2⟩ := List.append_inj' h rfl
    simp only [List.cons.injEq, and_true] at h2
    exact ⟨rfl, h1, h2⟩
  · right
    have h3 : t ++ [e] = (pre ++ x :: post1) ++ [a] := by rw [h]; simp
    obtain ⟨h1, h2⟩ := List.append_inj' h3 rfl
    simp only [List.cons.injEq, and_true] at h2
    exact ⟨post1, by rw [h2, List.concat_eq_append], h1⟩

theorem ReadsAsk_of_no_read (size : Nat) (t : List IOEvent)
    (h : ∀ count res, IOEvent.read count res ∉ t) : ReadsAsk size t := by
  intro pre count res post heq
  exact absurd (by rw [heq]; simp) (h count res)

theorem ReadsAsk_snoc_read (size : Nat) (t : List IOEvent) (count : Nat) (res : ReadResult)
    (h : ReadsAsk size t) (hcount : (received t).length + count + 1 = size)
    (hres : res.bytes.length ≤ count) : ReadsAsk size (t ++ [IOEvent.read count res]) := by
  intro pre c r post heq
  rcases split_snoc t _ _ pre post heq with ⟨-, ht, he⟩ | ⟨post1, -, ht⟩
  · simp only [IOEvent.read.injEq] at he
    obtain ⟨hc, hr⟩ := he
    subst ht hc hr
    exact ⟨hcount, hres⟩
  · exact h pre c r post1 ht

theorem ReadsAsk_snoc_sleep (size : Nat) (t : List IOEvent) (usec : Nat)
    (h : ReadsAsk size t) : ReadsAsk size (t ++ [IOEvent.sleep usec]) := by
  intro pre c r post heq
  rcases split_snoc t _ _ pre post heq with ⟨-, -, he⟩ | ⟨post1, -, ht⟩
  · cases he
  · exact h pre c r post1 ht

/-- The zeros of the `memset` end the string: as a C string the buffer is the
string of the received bytes. -/
theorem takeWhile_zeros (R rest : List Nat) (k : Nat) (hk : 1 ≤ k) :
    (R ++ List.replicate k 0 ++ rest).takeWhile (fun x => x ≠ 0) =
      R.takeWhile (fun x => x ≠ 0) := by
  obtain ⟨k, rfl⟩ : ∃ j, k = j + 1 := ⟨k - 1, by omega⟩
  induction R with
  | nil => simp [List.replicate_succ]
  | cons a R ih =>
    by_cases ha : a = 0
    · simp [List.takeWhile, ha]
    · simp only [List.cons_append, List.takeWhile_cons (a := a), ne_eq, ha, not_false_eq_true,
        decide_True, if_true, List.cons.injEq, true_and]
      exact ih

theorem strchr_zeros (R rest : List Nat) (k c : Nat) (hk : 1 ≤ k) :
    strchr (R ++ List.replicate k 0 ++ rest) c = strchr R c := by
  unfold strchr
  rw [takeWhile_zeros R rest k hk]

/-- A character found in a string is found in every extension of it. -/
theorem strchr_append_mono (A B : List Nat) (c : Nat) (h : strchr A c = true) :
    strchr (A ++ B) c = true := by
  unfold strchr at h ⊢
  induction A with
  | nil => simp at h
  | cons a A ih =>
    by_cases ha : a = 0
    · simp [List.takeWhile, ha] at h
    · simp only [List.cons_append, List.takeWhile_cons (a := a), ne_eq, ha, not_false_eq_true,
        decide_True, if_true, List.contains_cons, Bool.or_eq_true] at h ⊢
      rcases h with h | h
      · exact Or.inl h
      · exact Or.inr (ih h)

/-- The read loop against a well-behaved device, read by read: every read
asks for exactly the room left, and the loop is left either with no prompt in
the received text or right after the read that brought the first one. -/
theorem readLoop_audit (ex : Exchange) (size : Nat) (rest : List Nat) (hwb : ex.WellBehaved) :
    ∀ (fuel total attempts : Nat) (response : List Nat) (trace : List IOEvent),
      50 ≤ attempts + fuel → total + 1 ≤ size → total = (received trace).length →
      response = received trace ++ List.replicate (size - total) 0 ++ rest →
      strchr (received trace) 62 = false → ReadsAsk size trace →
      ∃ st, readLoop ex size (fuel + 1) total attempts response trace = some st ∧
        ReadsAsk size st.trace ∧
        (strchr (received st.trace) 62 = false ∨
          ∃ T c r, st.trace = T ++ [IOEvent.read c r] ∧ strchr (received T) 62 = false) := by
  intro fuel
  induction fuel with
  | zero =>
    intro total attempts response trace hfuel hsz htot hresp hnp hask
    have hcond : ¬ ((total : Int) < (size : Int) - 1 ∧ attempts < 50) := by omega
    exact ⟨⟨total, response, trace⟩, by simp [readLoop, hcond], hask, Or.inl hnp⟩
  | succ fuel ih =>
    intro total attempts response trace hfuel hsz htot hresp hnp hask
    unfold readLoop
    by_cases hcond : (total : Int) < (size : Int) - 1 ∧ attempts < 50
    · simp only [hcond, and_self, if_true]
      have hlen := hwb attempts (size - total - 1)
      generalize ex.read attempts (size - total - 1) = r at hlen ⊢
      have hask1 : ReadsAsk size (trace ++ [IOEvent.read (size - total - 1) r]) :=
        ReadsAsk_snoc_read size trace _ r hask (by omega) hlen
      by_cases hn : r.n > 0
      · have hnat := ReadResult.pos_n hn
        have hrec : received (trace ++ [IOEvent.read (size - total - 1) r]) =
            received trace ++ r.bytes := by
          rw [received_append]; simp [received]
        have hresp1 : writeAt response total r.bytes =
            received (trace ++ [IOEvent.read (size - total - 1) r]) ++
              List.replicate (size - (total + r.n.toNat)) 0 ++ rest := by
          rw [hresp, writeAt_received _ _ _ _ _ htot (by omega), hrec, hnat]
          congr 3
          omega
        have htot1 : total + r.n.toNat =
            (received (trace ++ [IOEvent.read (size - total - 1) r])).length := by
          rw [hrec, hnat, htot]
          simp
        have hsz1 : total + r.n.toNat + 1 ≤ size := by omega
        have hstr : strchr (writeAt response total r.bytes) 62 =
            strchr (received (trace ++ [IOEvent.read (size - total - 1) r])) 62 := by
          rw [hresp1, strchr_zeros _ _ _ _ (by omega)]
        simp only [hn, if_true]
        split
        · exact ⟨_, rfl, hask1, Or.inr ⟨trace, _, r, rfl, hnp⟩⟩
        · rename_i hno
          refine ih _ _ _ _ (by omega) hsz1 ?_ ?_ ?_ (ReadsAsk_snoc_sleep _ _ _ hask1)
          · rw [received_sleep]; exact htot1
          · rw [received_sleep]; exact hresp1
          · rw [received_sleep, ← hstr]; simpa using hno
      · have hb := ReadResult.bytes_of_not_pos hn
        have hrec : received (trace ++ [IOEvent.read (size - total - 1) r]) = received trace := by
          rw [received_append]; simp [received, hb]
        simp only [hn, if_false]
        refine ih _ _ _ _ (by omega) hsz ?_ ?_ ?_ (ReadsAsk_snoc_sleep _ _ _ hask1)
        · rw [received_sleep, hrec]; exact htot
        · rw [received_sleep, hrec]; exact hresp
        · rw [received_sleep, hrec]; exact hnp
    · exact ⟨⟨total, response, trace⟩, by simp [hcond], hask, Or.inl hnp⟩

/-- A complete run of `OBD_SendCommand` that reaches the read loop, against a
well-behaved device: what it returns, in terms of the bytes received. -/
theorem OBD_SendCommand_run (conn : OBDConnection) (cmd response : List Nat)
    (response_size : Nat) (ex : Exchange) (hc : conn.connected = true)
    (hw : ex.written = (strlen cmd : Int)) (hs : 1 ≤ response_size) (hwb : ex.WellBehaved) :
    ∃ r, OBD_SendCommand conn cmd response response_size ex = some r ∧
      (received r.trace).length + 1 ≤ response_size ∧
      r.ok = decide ((received r.trace).length > 0) ∧
      r.response = received r.trace ++
        List.replicate (response_size - (received r.trace).length) 0 ++
          response.drop response_size ∧
      ReadsAsk response_size r.trace ∧
      (strchr (received r.trace) 62 = false ∨
        ∃ T c res, r.trace = T ++ [IOEvent.read c res] ∧ strchr (received T) 62 = false) := by
  obtain ⟨st, hst, h1, h2, h3⟩ := readLoop_received ex response_size
    (response.drop response_size) hwb 50 0 0 (memsetZero response response_size)
    [IOEvent.flush, IOEvent.write cmd (strlen cmd), IOEvent.sleep 100000]
    (by omega) (by omega) (by simp [received]) (by simp [memsetZero, received])
  obtain ⟨st1, hst1, hask, hq⟩ := readLoop_audit ex response_size
    (response.drop response_size) hwb 50 0 0 (memsetZero response response_size)
    [IOEvent.flush, IOEvent.write cmd (strlen cmd), IOEvent.sleep 100000]
    (by omega) (by omega) (by simp [received]) (by simp [memsetZero, received])
    (by simp [received, strchr]) (ReadsAsk_of_no_read _ _ (by simp))
  rw [hst] at hst1
  simp only [Option.some.injEq] at hst1
  subst hst1
  have hset : st.response.set st.total 0 = st.response := by
    rw [h3]
    exact set_nul_received _ _ _ _ h2 (by omega)
  have hsend : OBD_SendCommand conn cmd response response_size ex =
      some ⟨decide (st.total > 0), conn, st.response, st.trace⟩ := by
    simp only [OBD_SendCommand, hc, hw, Bool.true_eq_false, if_false, ne_eq, not_true_eq_false,
      List.cons_append, List.nil_append, hst, Option.map_some', hset]
  refine ⟨_, hsend, ?_, ?_, ?_, hask, hq⟩
  · show (received st.trace).length + 1 ≤ response_size
    omega
  · show decide (st.total > 0) = decide ((received st.trace).length > 0)
    rw [h2]
  · show st.response = _
    rw [h3, h2]

theorem getElem_nul_received (R rest : List Nat) (k : Nat) (hk : 1 ≤ k) :
    (R ++ List.replicate k 0 ++ rest)[R.length]? = some 0 := by
  obtain ⟨k, rfl⟩ : ∃ j, k = j + 1 := ⟨k - 1, by omega⟩
  rw [List.append_assoc, List.getElem?_append_right (Nat.le_refl _)]
  simp [List.replicate_succ]

theorem strlen_received (R rest : List Nat) (k : Nat) (hk : 1 ≤ k) :
    strlen (R ++ List.replicate k 0 ++ rest) ≤ R.length := by
  unfold strlen
  rw [takeWhile_zeros R rest k hk]
  exact (List.takeWhile_sublist _).length_le

theorem received_prefix_length (pre post : List IOEvent) :
    (received pre).length ≤ (received (pre ++ post)).length := by
  rw [received_append, List.length_append]
  omega

/-! ## The claims about the read loop -/

set_option maxRecDepth 100000 in
/-- C11 as stated (no read after the first attempt at which `>` appears
anywhere in the accumulated response, for arbitrary byte values) fails: when
the first read delivers a NUL byte and then `>`, `strchr` stops at the NUL,
the prompt is not seen and the loop goes on to its 50th read. -/
theorem C11_prompt_after_nul_not_seen :
    (OBD_SendCommand conn0 (cstr "010C\r") [] 256 (replyBytesOnce 5 [0, 62])).map
      (fun r => (r.trace.take 4, readCount r.trace, r.ok)) =
      some ([IOEvent.flush, IOEvent.write (cstr "010C\r") 5, IOEvent.sleep 100000,
        IOEvent.read 255 (ReadResult.data [0, 62])], 50, true) := by
  decide

/-- C11, as the code has it: on a connected connection with the command fully
written, a buffer of at least one byte and a device whose reads deliver at
most what is asked for, the read after which `>` is in the accumulated
response read as a C string (that is, ahead of any NUL byte received) is the
last event of the exchange: no further read follows, the call returns true,
and the buffer holds everything received up to and including that read. -/
theorem C11_prompt_stops_reading (conn : OBDConnection) (cmd response : List Nat)
    (response_size : Nat) (ex : Exchange) (hc : conn.connected = true)
    (hw : ex.written = (strlen cmd : Int)) (hs : 1 ≤ response_size) (hwb : ex.WellBehaved) :
    ∃ r, OBD_SendCommand conn cmd response response_size ex = some r ∧
      ∀ pre count res post, r.trace = pre ++ IOEvent.read count res :: post →
        strchr (received pre ++ res.bytes) 62 = true →
        post = [] ∧ r.ok = true ∧
        r.response = received r.trace ++
          List.replicate (response_size - (received r.trace).length) 0 ++
            response.drop response_size := by
  obtain ⟨r, hr, -, hok, hresp, -, hq⟩ :=
    OBD_SendCommand_run conn cmd response response_size ex hc hw hs hwb
  refine ⟨r, hr, ?_⟩
  intro pre count res post hsplit hprompt
  have hrec : received r.trace = (received pre ++ res.bytes) ++ received post := by
    rw [hsplit, received_append]
    simp [received]
  have hfound : strchr (received r.trace) 62 = true := by
    rw [hrec]
    exact strchr_append_mono _ _ _ hprompt
  have hne : (received r.trace).length > 0 := by
    cases hl : received r.trace with
    | nil => rw [hl] at hfound; simp [strchr] at hfound
    | cons a l => simp
  refine ⟨?_, by rw [hok]; simpa using hne, hresp⟩
  rcases hq with hq | ⟨T, c, last, hT, hnp⟩
  · rw [hq] at hfound
    exact absurd hfound (by simp)
  · rw [hsplit] at hT
    rcases split_snoc T _ _ pre post hT.symm with ⟨hpost, -, -⟩ | ⟨post1, -, hT1⟩
    · exact hpost
    · have : strchr (received T) 62 = true := by
        rw [hT1, received_append]
        simp only [received]
        rw [← List.append_assoc]
        exact strchr_append_mono _ _ _ hprompt
      rw [hnp] at this
      exact absurd this (by simp)

set_option maxRecDepth 100000 in
/-- C11, witness: the adapter answers `41 0C 1A F8`, line breaks and the prompt
in one read; that read is the only one. -/
theorem C11_prompt_stops_reading_witness :
    (∃ r, OBD_SendCommand conn0 (cstr "010C\r") [] 256 (replyOnce 5 "41 0C 1A F8\r\r>") =
        some r ∧
      ∀ pre count res post, r.trace = pre ++ IOEvent.read count res :: post →
        strchr (received pre ++ res.bytes) 62 = true →
        post = [] ∧ r.ok = true ∧
        r.response = received r.trace ++
          List.replicate (256 - (received r.trace).length) 0 ++ ([] : List Nat).drop 256) ∧
    (OBD_SendCommand conn0 (cstr "010C\r") [] 256 (replyOnce 5 "41 0C 1A F8\r\r>")).map
      (fun r => (readCount r.trace, r.ok)) = some (1, true) :=
  ⟨C11_prompt_stops_reading conn0 (cstr "010C\r") [] 256 (replyOnce 5 "41 0C 1A F8\r\r>") rfl
    (by decide) (by decide) (replyOnce_wellBehaved 5 "41 0C 1A F8\r\r>"), by decide⟩

set_option maxRecDepth 100000 in
/-- C14 as stated (for every buffer of at least one byte and every well-behaved
device the response is NUL-terminated on return) fails on the two early
returns: on a connection that is not connected, and after a short write (3 of
5 bytes), `OBD_SendCommand` returns before the `memset`, so the 2-byte buffer
`[7, 7]` comes back as it was, with no NUL in it. -/
theorem C14_early_return_leaves_buffer :
    (1 ≤ 2 ∧ (silent 5).WellBehaved ∧ (silent 3).WellBehaved) ∧
    (OBD_SendCommand ⟨3, false, []⟩ (cstr "010C\r") [7, 7] 2 (silent 5)).map
      (fun r => (r.ok, r.response, r.response[(received r.trace).length]?, strlen r.response)) =
      some (false, [7, 7], some 7, 2) ∧
    (OBD_SendCommand conn0 (cstr "010C\r") [7, 7] 2 (silent 3)).map
      (fun r => (r.ok, r.response, r.response[(received r.trace).length]?, strlen r.response)) =
      some (false, [7, 7], some 7, 2) := by
  refine ⟨⟨by decide, ?_, ?_⟩, by decide, by decide⟩
  · intro attempts count
    simp [silent, ReadResult.bytes]
  · intro attempts count
    simp [silent, ReadResult.bytes]

/-- C14, as the code has it: for a buffer of at least one byte and a device
whose reads deliver at most what is asked for, `OBD_SendCommand` returns; the
count `total` of bytes received is at most `response_size - 1` after every
event; every read asks for at most `response_size - total - 1` bytes; and when
the call reaches the read phase (the connection is connected and the command
was written in full) the byte at index `total` of the buffer is NUL on return,
so the response is a string of fewer than `response_size` characters with its
NUL inside the buffer. -/
theorem C14_nul_terminated_within_bounds (conn : OBDConnection) (cmd response : List Nat)
    (response_size : Nat) (ex : Exchange) (hs : 1 ≤ response_size) (hwb : ex.WellBehaved) :
    ∃ r, OBD_SendCommand conn cmd response response_size ex = some r ∧
      (∀ pre post, r.trace = pre ++ post → (received pre).length ≤ response_size - 1) ∧
      (∀ pre count res post, r.trace = pre ++ IOEvent.read count res :: post →
        count ≤ response_size - (received pre).length - 1) ∧
      (conn.connected = true → ex.written = (strlen cmd : Int) →
        r.response[(received r.trace).length]? = some 0 ∧
        (received r.trace).length ≤ response_size - 1 ∧
        strlen r.response < response_size) := by
  have hfinish : ∀ r : SendResult, (received r.trace).length + 1 ≤ response_size →
      ReadsAsk response_size r.trace →
      (∀ pre post, r.trace = pre ++ post → (received pre).length ≤ response_size - 1) ∧
      (∀ pre count res post, r.trace = pre ++ IOEvent.read count res :: post →
        count ≤ response_size - (received pre).length - 1) := by
    intro r hlen hask
    refine ⟨?_, ?_⟩
    · intro pre post hsplit
      have := received_prefix_length pre post
      rw [← hsplit] at this
      omega
    · intro pre count res post hsplit
      have := (hask pre count res post hsplit).1
      omega
  by_cases hc : conn.connected = true
  · by_cases hw : ex.written = (strlen cmd : Int)
    · obtain ⟨r, hr, hlen, -, hresp, hask, -⟩ :=
        OBD_SendCommand_run conn cmd response response_size ex hc hw hs hwb
      refine ⟨r, hr, (hfinish r hlen hask).1, (hfinish r hlen hask).2, ?_⟩
      intro _ _
      refine ⟨?_, by omega, ?_⟩
      · rw [hresp]
        exact getElem_nul_received _ _ _ (by omega)
      · have := strlen_received (received r.trace) (response.drop response_size)
          (response_size - (received r.trace).length) (by omega)
        rw [← hresp] at this
        omega
    · refine ⟨⟨false, conn, response,
        [IOEvent.flush, IOEvent.write cmd (strlen cmd),
          IOEvent.log "Failed to write command\n"]⟩, by simp [OBD_SendCommand, hc, hw], ?_⟩
      have h := hfinish ⟨false, conn, response,
        [IOEvent.flush, IOEvent.write cmd (strlen cmd),
          IOEvent.log "Failed to write command\n"]⟩ (by simp [received]; omega)
        (ReadsAsk_of_no_read _ _ (by simp))
      exact ⟨h.1, h.2, fun _ hw1 => absurd hw1 hw⟩
  · refine ⟨⟨false, conn, response, []⟩, by simp [OBD_SendCommand, hc], ?_⟩
    have h := hfinish ⟨false, conn, response, []⟩ (by simp [received]; omega)
      (ReadsAsk_of_no_read _ _ (by simp))
    exact ⟨h.1, h.2, fun hc1 _ => absurd hc1 hc⟩

/-- C14, witness: a 2-byte buffer against an adapter that sends a long answer:
one byte is taken and the second byte of the buffer is the NUL. -/
theorem C14_nul_terminated_within_bounds_witness :
    ∃ r, OBD_SendCommand conn0 (cstr "010C\r") [7, 7] 2 (replyOnce 5 "41 0C 1A F8\r\r>") =
        some r ∧
      (∀ pre post, r.trace = pre ++ post → (received pre).length ≤ 2 - 1) ∧
      (∀ pre count res post, r.trace = pre ++ IOEvent.read count res :: post →
        count ≤ 2 - (received pre).length - 1) ∧
      (conn0.connected = true →
        (replyOnce 5 "41 0C 1A F8\r\r>").written = (strlen (cstr "010C\r") : Int) →
        r.response[(received r.trace).length]? = some 0 ∧
        (received r.trace).length ≤ 2 - 1 ∧ strlen r.response < 2) :=
  C14_nul_terminated_within_bounds conn0 (cstr "010C\r") [7, 7] 2
    (replyOnce 5 "41 0C 1A F8\r\r>") (by decide) (replyOnce_wellBehaved 5 "41 0C 1A F8\r\r>")

end DigitalDash
